import Mathlib

/-!
Verification of the `bite` texture-container codec library.

Shallow embedding of the container codecs (DDS, PVR, VTF) from
`bite/textures/{dds,pvr,vtf}.py`, the shared value types from
`bite/textures/base.py`, and the S3TC block-decode helpers from
`bite/decode/s3tc.py`.

Modelling conventions:
- a Python byte string is a `List Nat` (each entry one byte);
- the file stream (`io.BytesIO`) is a buffer plus a cursor position;
  plain `stream.read(n)` may return fewer than `n` bytes, `read_struct`
  fails hard on a short read (modelled from the spec: the breki
  ByteCursor raises TruncatedInput when fewer bytes remain than a
  fixed-width field requires);
- `struct` fixed-width integers are little-endian `Nat`s; IEEE float
  fields (VTF reflectivity, bumpmap scale, CMA entries) are only ever
  read and written back verbatim by the code under scrutiny, so they
  are modelled as opaque 4-byte strings;
- fractional bytes-per-pixel table entries are scaled by 8 so that all
  arithmetic stays in `Nat` (`math.ceil(n * bpp)` becomes
  `(n * bpp8 + 7) / 8`);
- Python exceptions are an explicit error type: parse and serialize
  functions return `Except PyErr _`;
- a Python `dict` built by a comprehension is an association list in
  generation order (CPython dicts preserve insertion order).
-/

/-- A byte string: one `Nat` per byte. -/
abbrev Bytes := List Nat

/-- Little-endian value of a byte string. -/
def fromLE : Bytes → Nat
  | [] => 0
  | b :: rest => b + 256 * fromLE rest

/-- `k`-byte little-endian encoding of `v` (modulo `256 ^ k`). -/
def toLE : Nat → Nat → Bytes
  | 0, _ => []
  | k + 1, v => v % 256 :: toLE k (v / 256)

/-- An `io.BytesIO` stream: the whole buffer plus the cursor position. -/
structure ByteStream where
  data : Bytes
  pos : Nat
deriving DecidableEq

/-- Python `stream.read(n)`: up to `n` bytes from the cursor (fewer when
the buffer runs out), advancing the cursor by the number returned. -/
def bsRead (s : ByteStream) (n : Nat) : Bytes × ByteStream :=
  let b := (s.data.drop s.pos).take n
  (b, ⟨s.data, s.pos + b.length⟩)

/-- Python `stream.read()`: every remaining byte. -/
def bsReadAll (s : ByteStream) : Bytes × ByteStream :=
  let b := s.data.drop s.pos
  (b, ⟨s.data, s.pos + b.length⟩)

/-- Python exceptions raised by the embedded code. -/
inductive PyErr
  /-- short read inside `read_struct` (spec: `TruncatedInput`) -/
  | truncated
  /-- a failed `assert` -/
  | assertFail
  /-- e.g. an enum constructor applied to a value with no member -/
  | valueError
  /-- a missing dictionary key -/
  | keyError
  /-- e.g. a call with a missing required positional argument -/
  | typeError
  /-- an attribute read that was never assigned -/
  | attributeError
  /-- an explicit `raise NotImplementedError` -/
  | notImplemented
deriving DecidableEq

deriving instance DecidableEq for Except

/-- `assert cond` : no-op when true, `AssertionError` otherwise. -/
def pyAssert (b : Bool) : Except PyErr Unit :=
  if b then .ok () else .error .assertFail

/-- `read_struct`-style exact read: fails with `truncated` when fewer
than `n` bytes remain (modelled from the spec: breki ByteCursor
`read_exact`). -/
def readExact (s : ByteStream) (n : Nat) : Except PyErr (Bytes × ByteStream) :=
  let (b, s') := bsRead s n
  if b.length = n then .ok (b, s') else .error .truncated

/-- `read_struct(stream, "B")`. -/
def readU8 (s : ByteStream) : Except PyErr (Nat × ByteStream) := do
  let (b, s') ← readExact s 1
  pure (fromLE b, s')

/-- `read_struct(stream, "H")` (little-endian). -/
def readU16 (s : ByteStream) : Except PyErr (Nat × ByteStream) := do
  let (b, s') ← readExact s 2
  pure (fromLE b, s')

/-- `read_struct(stream, "I")` (little-endian). -/
def readU32 (s : ByteStream) : Except PyErr (Nat × ByteStream) := do
  let (b, s') ← readExact s 4
  pure (fromLE b, s')

/-- `read_struct(stream, "i")` (little-endian, signed). -/
def readI32 (s : ByteStream) : Except PyErr (Int × ByteStream) := do
  let (v, s') ← readU32 s
  if v < 2 ^ 31 then pure ((v : Int), s') else pure ((v : Int) - 2 ^ 32, s')

/-- `struct.pack` of a fixed-width little-endian integer.  Parsed values
are always in range, so the encoding is total (out-of-range values are
truncated modulo `256 ^ k` rather than raising `struct.error`). -/
def writeLE (k v : Nat) : Bytes := toLE k v

/-- `struct.pack("ks", b)`: truncate or zero-pad `b` to exactly `k` bytes. -/
def packBytes (k : Nat) (b : Bytes) : Bytes :=
  let t := b.take k
  t ++ List.replicate (k - t.length) 0

/-- Association-list lookup (a Python `dict[key]` access, as an `Option`). -/
def lookupKV {κ α : Type} [DecidableEq κ] : List (κ × α) → κ → Option α
  | [], _ => none
  | (k, v) :: rest, key => if k = key then some v else lookupKV rest key

/-- Python `dict[key] = value`: replace in place when present, else append
(CPython preserves the original insertion position on overwrite). -/
def dictInsert {κ α : Type} [DecidableEq κ] : List (κ × α) → κ → α → List (κ × α)
  | [], key, v => [(key, v)]
  | (k, w) :: rest, key, v =>
    if k = key then (k, v) :: rest else (k, w) :: dictInsert rest key v

/-- A dict comprehension whose values are sequential `stream.read(size)`
calls: read each entry's byte count in order (short reads permitted). -/
def readSeq {α : Type} : ByteStream → List (α × Nat) → List (α × Bytes) × ByteStream
  | s, [] => ([], s)
  | s, (k, n) :: rest =>
    let (b, s') := bsRead s n
    let (tail, s'') := readSeq s' rest
    ((k, b) :: tail, s'')

/-! ## Shared texture value types (`bite/textures/base.py`) -/

/-- Cubemap face index, DirectX order (`base.Face`). -/
inductive Face
  | RIGHT | LEFT | UP | DOWN | FRONT | BACK
deriving DecidableEq

/-- `for face in base.Face`: members in definition (ordinal) order. -/
def Face.all : List Face :=
  [.RIGHT, .LEFT, .UP, .DOWN, .FRONT, .BACK]

/-- `Face(value)` for `value` in `range(6)`. -/
def Face.ofValue : Nat → Option Face
  | 0 => some .RIGHT
  | 1 => some .LEFT
  | 2 => some .UP
  | 3 => some .DOWN
  | 4 => some .FRONT
  | 5 => some .BACK
  | _ => none

/-- `base.MipIndex`: key of one mip-level/frame/face pixel blob.
Equality and hashing are structural over the triple. -/
structure MipIndex where
  mip : Nat
  frame : Nat
  face : Option Face
deriving DecidableEq

/-! ## S3TC block decode helpers (`bite/decode/s3tc.py`) -/

/-- `rgb565_as_rgb888`: expand a 16-bit RGB565 pixel to 8-bit RGB.
Each channel is OR-ed with its own left shift:
`r = (r | r << 3) & 0xFF`, `g = (g | g << 2) & 0xFF`, `b = (b | b << 3) & 0xFF`. -/
def rgb565_as_rgb888 (pixel : Nat) : Nat × Nat × Nat :=
  let r := (pixel >>> 0xB) &&& 0x1F
  let g := (pixel >>> 0x5) &&& 0x3F
  let b := (pixel >>> 0x0) &&& 0x1F
  let r := (r ||| r <<< 3) &&& 0xFF
  let g := (g ||| g <<< 2) &&& 0xFF
  let b := (b ||| b <<< 3) &&& 0xFF
  (r, g, b)

/-- The claim's expansion rule, written from the spec's words: expand each
channel to 8 bits by replicating its high bits into the low bits,
`r8 = (r5 << 3) | (r5 >> 2)`, `g8 = (g6 << 2) | (g6 >> 4)`,
`b8 = (b5 << 3) | (b5 >> 2)`. -/
def rgb565_bit_replication (pixel : Nat) : Nat × Nat × Nat :=
  let r := (pixel >>> 0xB) &&& 0x1F
  let g := (pixel >>> 0x5) &&& 0x3F
  let b := (pixel >>> 0x0) &&& 0x1F
  ((r <<< 3) ||| (r >>> 2), (g <<< 2) ||| (g >>> 4), (b <<< 3) ||| (b >>> 2))

/-- The amended expansion rule, written from the amended claim's words:
each channel is OR-ed with its left shift and masked to 8 bits
(`c8 = (c | c << k) & 0xFF` with `k = 3` for red/blue and `k = 2` for green). -/
def rgb565_or_shift (pixel : Nat) : Nat × Nat × Nat :=
  let r := (pixel >>> 0xB) &&& 0x1F
  let g := (pixel >>> 0x5) &&& 0x3F
  let b := (pixel >>> 0x0) &&& 0x1F
  ((r ||| r <<< 3) &&& 0xFF, (g ||| g <<< 2) &&& 0xFF, (b ||| b <<< 3) &&& 0xFF)

/-- Palette half of `DXT5_alpha_block` (`s3tc.py` lines 118-136): the
8-entry alpha palette `(a0, a1, a2, ..., a7)` decoded from the first two
bytes of the 8-byte alpha block. -/
def DXT5_alpha_palette (block : Bytes) : List Nat :=
  let a0 := block.getD 0 0
  let a1 := block.getD 1 0
  if a0 > a1 then
    let a2 := (a0 * 6 + a1 * 1) / 7
    let a3 := (a0 * 5 + a1 * 2) / 7
    let a4 := (a0 * 4 + a1 * 3) / 7
    let a5 := (a0 * 3 + a1 * 4) / 7
    let a6 := (a0 * 2 + a1 * 5) / 7
    let a7 := (a0 * 1 + a1 * 6) / 7
    [a0, a1, a2, a3, a4, a5, a6, a7]
  else
    let a2 := (a0 * 4 + a1 * 1) / 5
    let a3 := (a0 * 3 + a1 * 2) / 5
    let a4 := (a0 * 2 + a1 * 3) / 5
    let a5 := (a0 * 1 + a1 * 4) / 5
    [a0, a1, a2, a3, a4, a5, 0, 255]

/-- The 8 palette entries in interpolation order: `a0`, the six
interpolated entries `a2..a7`, then `a1` (the palette tuple stores the
two endpoints first, then the interpolated steps). -/
def alphaSteps : List Nat → List Nat
  | [a0, a1, a2, a3, a4, a5, a6, a7] => [a0, a2, a3, a4, a5, a6, a7, a1]
  | l => l

/-- Whether a list of alpha values is strictly monotonically decreasing. -/
def strictDecreasing : List Nat → Bool
  | [] => true
  | [_] => true
  | a :: b :: rest => a > b && strictDecreasing (b :: rest)

/-! ## PVR codec (`bite/textures/pvr.py`) -/

/-- `PixelMode(value)` succeeds exactly for the members `0x00 .. 0x07`. -/
def PixelMode.isValid (v : Nat) : Bool := v ≤ 7

/-- `TextureMode(value)` succeeds exactly for the members
`0x01 .. 0x0D`, `0x10`, `0x11`, `0x12`. -/
def TextureMode.isValid (v : Nat) : Bool :=
  (1 ≤ v && v ≤ 0xD) || v == 0x10 || v == 0x11 || v == 0x12

/-- The `_MIPS` texture modes (`TWIDDLED_MIPS`, `VQ_MIPS`, `PAL_4_MIPS`,
`PAL_8_MIPS`, `RECTANGLE_MIPS`, `STRIDE_MIPS`, `SMALL_VQ_MIPS`,
`ALT_TWIDDLED_MIPS`). -/
def TextureMode.isMips (v : Nat) : Bool :=
  v == 0x02 || v == 0x04 || v == 0x06 || v == 0x08 ||
  v == 0x0A || v == 0x0C || v == 0x11 || v == 0x12

/-- `pvr.bytes_per_pixel`, scaled by 8 to stay in `Nat`
(`ARGB_1555/RGB_565/ARGB_4444/YUV_422/BUMP_MAP ↦ 2`, `PALETTE_4 ↦ 0.5`,
`PALETTE_8 ↦ 1`; `RESERVED` has no entry). -/
def Pvr.bytes_per_pixel_x8 (pixel : Nat) : Option Nat :=
  if pixel ≤ 4 then some 16
  else if pixel = 5 then some 4
  else if pixel = 6 then some 8
  else none

/-- `pvr.Format`: a pixel-mode / texture-mode pair (modes stored as their
enum values). -/
structure PvrFormat where
  pixel : Nat
  texture : Nat
deriving DecidableEq

/-- The `Pvr` texture state after `parse`. -/
structure Pvr where
  gbix : Option Bytes
  data_size : Nat
  format : PvrFormat
  max_size : Nat × Nat
  num_frames : Nat
  num_mipmaps : Nat
  mipmaps : List (MipIndex × Bytes)
  raw_data : Option Bytes
deriving DecidableEq

/-- `Pvr.__init__` defaults (after `base.Texture.__init__`). -/
def Pvr.init : Pvr :=
  { gbix := none, data_size := 8, format := ⟨0, 1⟩, max_size := (0, 0),
    num_frames := 1, num_mipmaps := 1, mipmaps := [], raw_data := none }

/-- `math.ceil(n * bpp)` where `bpp` is given in eighths of a byte. -/
def ceilMul8 (n bpp8 : Nat) : Nat := (n * bpp8 + 7) / 8

/-- `[math.ceil((width >> i) * (height >> i) * bpp) for i in range(n)]`. -/
def Pvr.mip_sizes (w h bpp8 n : Nat) : List Nat :=
  (List.range n).map fun i => ceilMul8 ((w >>> i) * (h >>> i)) bpp8

/-- Key/size order of the `Pvr.parse` mipmap dict comprehension:
`for mip, mip_size in enumerate(mip_sizes)`, keys `MipIndex(mip, 0, None)`. -/
def Pvr.mipOrder (sizes : List Nat) : List (MipIndex × Nat) :=
  sizes.enum.map fun p => (⟨p.1, 0, none⟩, p.2)

/-- `b"GBIX"`. -/
def gbixMagic : Bytes := [0x47, 0x42, 0x49, 0x58]

/-- `b"PVRT"`. -/
def pvrtMagic : Bytes := [0x50, 0x56, 0x52, 0x54]

/-- Continuation of `Pvr.parse` from the `assert magic == b"PVRT"` check
on (`pvr.py` lines 116-144), after the optional GBIX chunk has been
consumed.  The `read_struct(stream, "2B")` and `"2H"` calls are modelled
as two consecutive fixed-width reads, which fail on exactly the same
inputs.  The source's `NotImplementedError` for `_MIPS` texture modes
(lines 123-125) is commented out and therefore not part of the function. -/
def Pvr.parseBody (gbix : Option Bytes) (magic : Bytes) (s : ByteStream) :
    Except PyErr Pvr := do
  let t := Pvr.init
  pyAssert (magic = pvrtMagic)
  let (data_size, s) ← readU32 s
  let (pm, s) ← readU8 s
  let (tm, s) ← readU8 s
  let pixel ← if PixelMode.isValid pm then pure pm else Except.error PyErr.valueError
  let texture ← if TextureMode.isValid tm then pure tm else Except.error PyErr.valueError
  let format : PvrFormat := ⟨pixel, texture⟩
  let (pad, s) ← readU16 s
  pyAssert (pad = 0)
  let (w, s) ← readU16 s
  let (h, s) ← readU16 s
  match Pvr.bytes_per_pixel_x8 format.pixel with
  | none =>
    let (rest, _) := bsReadAll s
    pure { t with gbix := gbix, data_size := data_size, format := format,
                  max_size := (w, h), raw_data := some rest }
  | some bpp8 =>
    let sizes := Pvr.mip_sizes w h bpp8 t.num_mipmaps
    if sizes.sum + 8 ≠ data_size then
      let (rest, _) := bsReadAll s
      pure { t with gbix := gbix, data_size := data_size, format := format,
                    max_size := (w, h), raw_data := some rest }
    else
      let (ms, _) := readSeq s (Pvr.mipOrder sizes)
      pure { t with gbix := gbix, data_size := data_size, format := format,
                    max_size := (w, h), mipmaps := ms }

/-- `Pvr.parse` (`pvr.py` lines 106-144): optional GBIX chunk, then the
PVRT body (`Pvr.parseBody`). -/
def Pvr.parse (data : Bytes) : Except PyErr Pvr := do
  let s : ByteStream := ⟨data, 0⟩
  let (magic0, s) := bsRead s 4
  if magic0 = gbixMagic then do
    let (len, s) ← readU32 s
    let (g, s) := bsRead s len
    let (magic, s) := bsRead s 4
    Pvr.parseBody (some g) magic s
  else
    Pvr.parseBody none magic0 s

/-- `b"".join(self.mipmaps[key] for key in keys)` with a `KeyError` on a
missing key. -/
def lookupJoin {κ : Type} [DecidableEq κ] (m : List (κ × Bytes)) :
    List κ → Except PyErr Bytes
  | [] => pure []
  | k :: rest => do
    let b ← match lookupKV m k with
            | some b => pure b
            | none => Except.error PyErr.keyError
    let tail ← lookupJoin m rest
    pure (b ++ tail)

/-- `Pvr.as_bytes` (`pvr.py` lines 146-178). -/
def Pvr.as_bytes (t : Pvr) : Except PyErr Bytes := do
  let data_size :=
    (match t.raw_data with
     | some r => r.length
     | none => (t.mipmaps.map fun p => p.2.length).sum) + 8
  let gbixPart :=
    match t.gbix with
    | some g => gbixMagic ++ writeLE 4 g.length ++ g
    | none => ([] : Bytes)
  let mipData ←
    match t.raw_data with
    | some r => pure r
    | none =>
      lookupJoin t.mipmaps
        ((List.range t.num_mipmaps).map fun mip => (⟨mip, 0, none⟩ : MipIndex))
  pure (gbixPart ++ pvrtMagic ++ writeLE 4 data_size ++
        writeLE 1 t.format.pixel ++ writeLE 1 t.format.texture ++
        writeLE 2 0 ++ writeLE 2 t.max_size.1 ++ writeLE 2 t.max_size.2 ++
        mipData)

/-- `parse(serialize(parse(x)))`. -/
def pvrRoundTrip (x : Bytes) : Except PyErr Pvr := do
  let t ← Pvr.parse x
  let y ← Pvr.as_bytes t
  Pvr.parse y

/-- A PVR file image: optional GBIX chunk, `PVRT` magic, declared
`data_size`, pixel mode, texture mode, zero padding, 16-bit width and
height, then the payload. -/
def mkPvrBytes (gbix : Option Bytes) (ds pm tm w h : Nat) (payload : Bytes) : Bytes :=
  (match gbix with
   | some g => gbixMagic ++ (writeLE 4 g.length ++ g)
   | none => ([] : Bytes)) ++
  (pvrtMagic ++ (writeLE 4 ds ++ ([pm] ++ ([tm] ++ (writeLE 2 0 ++
    (writeLE 2 w ++ (writeLE 2 h ++ payload)))))))

/-! ## DDS codec (`bite/textures/dds.py`) -/

/-- `DXGI(value)` succeeds exactly for the enum's members:
`0x00 .. 0x73`, `0x82 .. 0x84` (`P208`/`V208`/`V408`), the two sampler
feedback values, and `FORCE_UINT`. -/
def DXGI.isValid (v : Nat) : Bool :=
  v ≤ 0x73 || v == 0x82 || v == 0x83 || v == 0x84 ||
  v == 0xBD || v == 0xBE || v == 0xFFFFFFFF

/-- `Dimension(value)` succeeds for `INVALID`, `TEXTURE_1D`, `TEXTURE_2D`,
`TEXTURE_3D`. -/
def Dimension.isValid (v : Nat) : Bool :=
  v == 0 || v == 2 || v == 3 || v == 4

/-- `dds.bytes_per_pixel`, scaled by 8 (DXGI format value ↦ 8 × bytes per
pixel); formats absent from the source dict (e.g. the whole
`0x13 .. 0x26` block, BC2, BC4, the ancient formats) map to `none`. -/
def Dds.bytes_per_pixel_x8 (fmt : Nat) : Option Nat :=
  if 0x01 ≤ fmt ∧ fmt ≤ 0x04 then some 128
  else if 0x05 ≤ fmt ∧ fmt ≤ 0x08 then some 96
  else if 0x09 ≤ fmt ∧ fmt ≤ 0x12 then some 64
  else if 0x27 ≤ fmt ∧ fmt ≤ 0x2F then some 32
  else if 0x30 ≤ fmt ∧ fmt ≤ 0x3B then some 16
  else if 0x3C ≤ fmt ∧ fmt ≤ 0x41 then some 8
  else if fmt = 0x42 then some 1
  else if 0x43 ≤ fmt ∧ fmt ≤ 0x45 then some 32
  else if 0x46 ≤ fmt ∧ fmt ≤ 0x48 then some 4
  else if 0x4C ≤ fmt ∧ fmt ≤ 0x4E then some 8
  else if 0x52 ≤ fmt ∧ fmt ≤ 0x54 then some 8
  else if 0x55 ≤ fmt ∧ fmt ≤ 0x56 then some 16
  else if 0x57 ≤ fmt ∧ fmt ≤ 0x5D then some 32
  else if 0x5E ≤ fmt ∧ fmt ≤ 0x63 then some 8
  else none

/-- `dds.min_block_size.get(format, 0)`. -/
def Dds.min_block_size (fmt : Nat) : Nat :=
  if fmt = 0x42 then 1
  else if 0x46 ≤ fmt ∧ fmt ≤ 0x48 then 8
  else if (0x4C ≤ fmt ∧ fmt ≤ 0x4E) ∨ (0x52 ≤ fmt ∧ fmt ≤ 0x54) ∨
      (0x5E ≤ fmt ∧ fmt ≤ 0x63) then 16
  else 0

/-- `dds.dxgi_from_magic`: `b"BC4U" ↦ BC4_UNORM`, `b"BC5U" ↦ BC5_UNORM`,
`b"DXT1" ↦ BC1_UNORM`. -/
def dxgi_from_magic (m : Bytes) : Option Nat :=
  if m = [0x42, 0x43, 0x34, 0x55] then some 0x50
  else if m = [0x42, 0x43, 0x35, 0x55] then some 0x53
  else if m = [0x44, 0x58, 0x54, 0x31] then some 0x47
  else none

/-- The reverse `dxgi_magic` dict built inside `Dds.as_bytes`. -/
def dxgi_magic (fmt : Nat) : Option Bytes :=
  if fmt = 0x50 then some [0x42, 0x43, 0x34, 0x55]
  else if fmt = 0x53 then some [0x42, 0x43, 0x35, 0x55]
  else if fmt = 0x47 then some [0x44, 0x58, 0x54, 0x31]
  else none

/-- `b"DDS "`. -/
def ddsMagic : Bytes := [0x44, 0x44, 0x53, 0x20]

/-- `b"DX10"`. -/
def dx10Magic : Bytes := [0x44, 0x58, 0x31, 0x30]

/-- `dds.DdsHeader` (`breki.Struct`, format `"4s7I44s2I"`). -/
structure DdsHeader where
  magic : Bytes
  header_size : Nat
  flags : Nat
  width : Nat
  height : Nat
  pitch_or_linear_size : Nat
  depth : Nat
  num_mipmaps : Nat
  reserved : Bytes
  pf0 : Nat
  pf1 : Nat
deriving DecidableEq

/-- `DdsHeader.from_stream`: one 84-byte `read_struct`, modelled as
consecutive fixed-width reads (failing on exactly the same inputs). -/
def DdsHeader.from_stream (s : ByteStream) :
    Except PyErr (DdsHeader × ByteStream) := do
  let (magic, s) ← readExact s 4
  let (header_size, s) ← readU32 s
  let (flags, s) ← readU32 s
  let (width, s) ← readU32 s
  let (height, s) ← readU32 s
  let (pls, s) ← readU32 s
  let (depth, s) ← readU32 s
  let (nm, s) ← readU32 s
  let (reserved, s) ← readExact s 44
  let (pf0, s) ← readU32 s
  let (pf1, s) ← readU32 s
  pure (⟨magic, header_size, flags, width, height, pls, depth, nm,
         reserved, pf0, pf1⟩, s)

/-- `DdsHeader.as_bytes`: repack the 84-byte struct. -/
def DdsHeader.as_bytes (h : DdsHeader) : Bytes :=
  packBytes 4 h.magic ++ writeLE 4 h.header_size ++ writeLE 4 h.flags ++
  writeLE 4 h.width ++ writeLE 4 h.height ++
  writeLE 4 h.pitch_or_linear_size ++ writeLE 4 h.depth ++
  writeLE 4 h.num_mipmaps ++ packBytes 44 h.reserved ++
  writeLE 4 h.pf0 ++ writeLE 4 h.pf1

/-- `dds.DX10Header` (`breki.Struct`, format `"4s20sI16s5I"`).  `magic` is
`none` on the dummy header built for legacy FourCC files (the slot is
never assigned there; `None == b"DX10"` is false). -/
structure DX10Header where
  magic : Option Bytes
  reserved_1 : Bytes
  unknown : Nat
  reserved_2 : Bytes
  format : Nat
  dimension : Nat
  misc_flag : Nat
  array_size : Nat
  alpha_flag : Nat
deriving DecidableEq

/-- `DX10Header.from_stream`: the 64-byte struct with the `_classes`
conversions `DXGI(format)` and `Dimension(dimension)` (a `ValueError`
on a non-member value); `MiscFlag` and `AlphaFlag` are `IntFlag`s and
accept any value. -/
def DX10Header.from_stream (s : ByteStream) :
    Except PyErr (DX10Header × ByteStream) := do
  let (magic, s) ← readExact s 4
  let (r1, s) ← readExact s 20
  let (unknown, s) ← readU32 s
  let (r2, s) ← readExact s 16
  let (fmt, s) ← readU32 s
  let format ← if DXGI.isValid fmt then pure fmt
               else Except.error PyErr.valueError
  let (dim, s) ← readU32 s
  let dimension ← if Dimension.isValid dim then pure dim
                  else Except.error PyErr.valueError
  let (misc_flag, s) ← readU32 s
  let (array_size, s) ← readU32 s
  let (alpha_flag, s) ← readU32 s
  pure (⟨some magic, r1, unknown, r2, format, dimension, misc_flag,
         array_size, alpha_flag⟩, s)

/-- `DX10Header.as_bytes` (only ever called with `magic = some b"DX10"`). -/
def DX10Header.as_bytes (h2 : DX10Header) : Bytes :=
  packBytes 4 (h2.magic.getD []) ++ packBytes 20 h2.reserved_1 ++
  writeLE 4 h2.unknown ++ packBytes 16 h2.reserved_2 ++
  writeLE 4 h2.format ++ writeLE 4 h2.dimension ++
  writeLE 4 h2.misc_flag ++ writeLE 4 h2.array_size ++
  writeLE 4 h2.alpha_flag

/-- The `Dds` texture state after `parse`. -/
structure Dds where
  header : Option DdsHeader
  header_2 : Option DX10Header
  format : Nat
  max_size : Nat × Nat
  num_mipmaps : Nat
  num_frames : Nat
  mipmaps : List (MipIndex × Bytes)
  raw_data : Option Bytes
deriving DecidableEq

/-- `Dds.is_cubemap` evaluated on a DX10 header: Apex Legends cubemap
arrays do not set the cubemap flag, so `array_size % 6 == 0` forces the
`dimension == TEXTURE_2D` test, and only otherwise is the
`MiscFlag.CUBEMAP` bit (0x04) consulted. -/
def ddsIsCubemapH2 (h2 : DX10Header) : Bool :=
  if h2.array_size % 6 == 0 then h2.dimension == 3
  else h2.misc_flag.testBit 2

/-- The `Dds.is_cubemap` property (only evaluated once `header_2` is
assigned; `none` cannot occur after a successful parse). -/
def Dds.is_cubemap (t : Dds) : Bool :=
  match t.header_2 with
  | some h2 => ddsIsCubemapH2 h2
  | none => false

/-- `[max(math.ceil((width >> i) * (height >> i) * bpp), mbs)
for i in range(num_mipmaps)]`. -/
def Dds.mip_sizes (w h bpp8 fmt n : Nat) : List Nat :=
  (List.range n).map fun i =>
    max (ceilMul8 ((w >>> i) * (h >>> i)) bpp8) (Dds.min_block_size fmt)

/-- Key/size order of the cubemap mipmap dict comprehension in
`Dds.parse`: `for frame ...: for face in base.Face: for mip, mip_size in
enumerate(mip_sizes)`. -/
def ddsOrderCubemap (numFrames : Nat) (sizes : List Nat) :
    List (MipIndex × Nat) :=
  (List.range numFrames).flatMap fun frame =>
    Face.all.flatMap fun face =>
      sizes.enum.map fun p => (⟨p.1, frame, some face⟩, p.2)

/-- Key/size order of the non-cubemap mipmap dict comprehension in
`Dds.parse`: `for frame ...: for mip, mip_size in enumerate(mip_sizes)`. -/
def ddsOrderFlat (numFrames : Nat) (sizes : List Nat) :
    List (MipIndex × Nat) :=
  (List.range numFrames).flatMap fun frame =>
    sizes.enum.map fun p => (⟨p.1, frame, none⟩, p.2)

/-- Key order of the cubemap branch of `Dds.as_bytes`:
`for frame ...: for face in base.Face: for mip in
reversed(range(num_mipmaps))`. -/
def ddsSerCubemapKeys (numFrames numMips : Nat) : List MipIndex :=
  (List.range numFrames).flatMap fun frame =>
    Face.all.flatMap fun face =>
      (List.range numMips).reverse.map fun mip => ⟨mip, frame, some face⟩

/-- Continuation of `Dds.parse` from `# expose the essentials`
(`dds.py` lines 381-412), once both headers are in hand. -/
def Dds.parseBody (header : DdsHeader) (h2 : DX10Header) (s : ByteStream) :
    Except PyErr Dds := do
  let format := h2.format
  let num_frames ←
    if ddsIsCubemapH2 h2 then do
      pyAssert (h2.array_size % 6 = 0)
      pure (h2.array_size / 6)
    else
      pure h2.array_size
  let t : Dds :=
    { header := some header, header_2 := some h2, format := format,
      max_size := (header.width, header.height),
      num_mipmaps := header.num_mipmaps, num_frames := num_frames,
      mipmaps := [], raw_data := none }
  match Dds.bytes_per_pixel_x8 format with
  | none =>
    let (rest, _) := bsReadAll s
    pure { t with raw_data := some rest }
  | some bpp8 =>
    let sizes :=
      Dds.mip_sizes header.width header.height bpp8 format header.num_mipmaps
    if ddsIsCubemapH2 h2 then
      let (ms, _) := readSeq s (ddsOrderCubemap num_frames sizes)
      pure { t with mipmaps := ms }
    else
      let (ms, _) := readSeq s (ddsOrderFlat num_frames sizes)
      pure { t with mipmaps := ms }

/-- `Dds.parse` (`dds.py` lines 356-412): the 84-byte legacy header with
its asserts, then either the DX10 extended header (after `seek(-4, 1)`)
or a dummy header from a legacy FourCC, then `Dds.parseBody`. -/
def Dds.parse (data : Bytes) : Except PyErr Dds := do
  let s : ByteStream := ⟨data, 0⟩
  let (header, s) ← DdsHeader.from_stream s
  pyAssert (header.magic = ddsMagic)
  pyAssert (header.header_size = 0x7C)
  pyAssert (header.reserved = List.replicate 44 0)
  pyAssert (header.pf0 = 0x20 ∧ header.pf1 = 0x04)
  let (magic, s) := bsRead s 4
  if magic = dx10Magic then do
    let s : ByteStream := ⟨s.data, s.pos - 4⟩
    let (h2, s) ← DX10Header.from_stream s
    pyAssert (h2.reserved_1 = List.replicate 20 0)
    pyAssert (h2.reserved_2 = List.replicate 16 0)
    Dds.parseBody header h2 s
  else do
    let format ← match dxgi_from_magic magic with
                 | some f => pure f
                 | none => Except.error PyErr.keyError
    let h2 : DX10Header :=
      { magic := none, reserved_1 := [], unknown := 0, reserved_2 := [],
        format := format, dimension := 3, misc_flag := 0, array_size := 1,
        alpha_flag := 0 }
    Dds.parseBody header h2 s

/-- `Dds.as_bytes` (`dds.py` lines 414-443).  In the structured
non-cubemap branch the source reads `self.array_size`, an attribute that
is never assigned on `Dds` (the DX10 header's field is
`self.header_2.array_size`), so the lookup raises `AttributeError`
before any mip data is emitted. -/
def Dds.as_bytes (t : Dds) : Except PyErr Bytes := do
  let header ← match t.header with
               | some h => pure h
               | none => Except.error PyErr.assertFail
  let h2 ← match t.header_2 with
           | some h => pure h
           | none => Except.error PyErr.assertFail
  let out1 := header.as_bytes
  let out2 ←
    if h2.magic = some dx10Magic then
      pure h2.as_bytes
    else
      match dxgi_magic t.format with
      | some m => pure m
      | none => Except.error PyErr.keyError
  match t.raw_data with
  | some rd => pure (out1 ++ out2 ++ rd)
  | none =>
    if Dds.is_cubemap t then do
      let mips ← lookupJoin t.mipmaps
        (ddsSerCubemapKeys t.num_frames t.num_mipmaps)
      pure (out1 ++ out2 ++ mips)
    else
      Except.error PyErr.attributeError

/-- `Dds.split` (`dds.py` lines 314-345): after the two header asserts,
the first loop iteration evaluates `child = Dds()`, which omits the
required `filepath` positional argument of `Dds.__init__` and raises
`TypeError`; only a zero-frame texture escapes the loop body. -/
def Dds.split (t : Dds) : Except PyErr (List Dds) := do
  let _ ← match t.header with
          | some h => pure h
          | none => (Except.error PyErr.assertFail : Except PyErr DdsHeader)
  let _ ← match t.header_2 with
          | some h => pure h
          | none => (Except.error PyErr.assertFail : Except PyErr DX10Header)
  if t.num_frames = 0 then
    pure []
  else
    Except.error PyErr.typeError

/-- `parse(serialize(parse(x)))` for the DDS codec. -/
def ddsRoundTrip (x : Bytes) : Except PyErr Dds := do
  let t ← Dds.parse x
  let y ← Dds.as_bytes t
  Dds.parse y


/-! ## VTF codec (`bite/textures/vtf.py`) -/

/-- `b"VTF\0"`. -/
def vtfMagic : Bytes := [0x56, 0x54, 0x46, 0x00]

/-- `Format(value)` membership for a SIGNED value (the thumbnail format
is read with `"i"`): `NONE = -1`, `0 .. 26`, `BC6H_UF16 = 66`. -/
def VtfFormat.isValid (v : Int) : Bool :=
  v == -1 || (0 ≤ v && v ≤ 26) || v == 66

/-- `vtf.bytes_per_pixel`, scaled by 2 to absorb the `0.5` entries of
the two DXT1 variants.  The source dict mixes units (32 stands for
RGBA_8888 although `mip_data_size` multiplies it in directly); the
numbers here are exactly twice the dict values, unit quirks included.
Only `Format.NONE` is missing from the dict. -/
def Vtf.bytes_per_pixel_x2 (f : Int) : Option Nat :=
  if f = 0 ∨ f = 1 ∨ f = 11 ∨ f = 12 ∨ f = 16 ∨ f = 23 ∨ f = 26 then some 64
  else if f = 2 ∨ f = 3 ∨ f = 9 ∨ f = 10 then some 48
  else if f = 4 ∨ f = 6 ∨ f = 17 ∨ f = 18 ∨ f = 19 ∨ f = 21 ∨ f = 22 then
    some 32
  else if f = 5 ∨ f = 7 ∨ f = 8 then some 16
  else if f = 13 ∨ f = 20 then some 1
  else if f = 14 ∨ f = 15 ∨ f = 66 then some 2
  else if f = 24 ∨ f = 25 then some 128
  else none

/-- `vtf.dxt_formats` membership: DXT1, DXT3, DXT5, DXT1_ONE_BIT_ALPHA,
BC6H_UF16. -/
def Vtf.isDxt (f : Int) : Bool :=
  f == 13 || f == 14 || f == 15 || f == 20 || f == 66

/-- `vtf.mip_data_size(size, level, format_)`: shift the dimensions down
by `level`, round DXT dimensions up to full 4×4 tiles (minimum one
tile), then `ceil(width * height * bpp)` with the dict's raw factors. -/
def Vtf.mip_data_size (w h level : Nat) (fmt : Int) : Option Nat :=
  match Vtf.bytes_per_pixel_x2 fmt with
  | none => none
  | some bpp2 =>
    let w := w >>> level
    let h := h >>> level
    let w := if Vtf.isDxt fmt then max (((w + 3) / 4) * 4) 4 else w
    let h := if Vtf.isDxt fmt then max (((h + 3) / 4) * 4) 4 else h
    some ((w * h * bpp2 + 1) / 2)

/-- `[mip_data_size(max_size, i, format) for i in range(num_mipmaps)]`;
`getD 0` is only ever evaluated on the branch where the format has a
`bytes_per_pixel` entry, exactly as in the source. -/
def Vtf.mip_sizes (w h : Nat) (fmt : Int) (n : Nat) : List Nat :=
  (List.range n).map fun i => (Vtf.mip_data_size w h i fmt).getD 0

/-- The eight valid `Resource.valid_tags` keys.  The source indexes the
`resources` dict by the human-readable tag names; the mapping is
bijective so the tag itself serves as the key here. -/
inductive ResTag
  | thumbData | imageData | spriteSheet | crc | cmaTag | lod | tso | kvd
deriving DecidableEq

/-- `Resource.valid_tags` membership on the raw 3-byte tag. -/
def ResTag.ofBytes (b : Bytes) : Option ResTag :=
  if b = [0x01, 0x00, 0x00] then some .thumbData
  else if b = [0x30, 0x00, 0x00] then some .imageData
  else if b = [0x10, 0x00, 0x00] then some .spriteSheet
  else if b = [0x43, 0x52, 0x43] then some .crc
  else if b = [0x43, 0x4D, 0x41] then some .cmaTag
  else if b = [0x4C, 0x4F, 0x44] then some .lod
  else if b = [0x54, 0x53, 0x4F] then some .tso
  else if b = [0x4B, 0x56, 0x44] then some .kvd
  else none

/-- `vtf.Resource`: for a CRC resource the `offset` slot holds the
checksum and `flags` is asserted to be `0x02`. -/
structure Resource where
  tag : ResTag
  flags : Nat
  offset : Nat
deriving DecidableEq

/-- `Resource.from_stream`: `read_struct(stream, "3sBI")` plus the
constructor asserts (`tag in valid_tags`, CRC ⇒ `flags == 0x02`). -/
def Resource.from_stream (s : ByteStream) :
    Except PyErr (Resource × ByteStream) := do
  let (tagB, s) ← readExact s 3
  let (fl, s) ← readU8 s
  let (off, s) ← readU32 s
  match ResTag.ofBytes tagB with
  | none => Except.error PyErr.assertFail
  | some tag => do
    if tag = ResTag.crc then pyAssert (fl = 2) else pure ()
    pure (⟨tag, fl, off⟩, s)

/-- `[Resource.from_stream(stream) for i in range(num_resources)]`. -/
def readResources : Nat → ByteStream →
    Except PyErr (List Resource × ByteStream)
  | 0, s => pure ([], s)
  | n + 1, s => do
    let (r, s) ← Resource.from_stream s
    let (rs, s) ← readResources n s
    pure (r :: rs, s)

/-- `{Resource.valid_tags[resource.tag]: resource for resource in
resources}` (later duplicates overwrite in place). -/
def resourcesDict (rs : List Resource) : List (ResTag × Resource) :=
  rs.foldl (fun d r => dictInsert d r.tag r) []

/-- `vtf.VtfHeader` (`breki.Struct`, format `"4s3I2HI2H4s3f4sfI"`,
56 bytes).  The three reflectivity floats and the bumpmap-scale float
are kept as raw little-endian bytes. -/
structure VtfHeader where
  magic : Bytes
  major : Nat
  minor : Nat
  header_size : Nat
  width : Nat
  height : Nat
  flags : Nat
  num_frames : Nat
  first_frame : Nat
  padding_1 : Bytes
  reflectivity : Bytes
  padding_2 : Bytes
  bumpmap_scale : Bytes
  format : Int
deriving DecidableEq

/-- `VtfHeader.from_stream`: the 56-byte struct with the `_classes`
conversion `Format(format)` (read unsigned, so `NONE = -1` is not
reachable here); `Flags` is an `IntFlag` and accepts any value. -/
def VtfHeader.from_stream (s : ByteStream) :
    Except PyErr (VtfHeader × ByteStream) := do
  let (magic, s) ← readExact s 4
  let (major, s) ← readU32 s
  let (minor, s) ← readU32 s
  let (header_size, s) ← readU32 s
  let (width, s) ← readU16 s
  let (height, s) ← readU16 s
  let (flags, s) ← readU32 s
  let (num_frames, s) ← readU16 s
  let (first_frame, s) ← readU16 s
  let (p1, s) ← readExact s 4
  let (refl, s) ← readExact s 12
  let (p2, s) ← readExact s 4
  let (bump, s) ← readExact s 4
  let (fmtv, s) ← readU32 s
  let format ← if fmtv ≤ 26 ∨ fmtv = 66 then pure ((fmtv : Int))
               else Except.error PyErr.valueError
  pure (⟨magic, major, minor, header_size, width, height, flags,
         num_frames, first_frame, p1, refl, p2, bump, format⟩, s)

/-- Key of the `Vtf.mipmaps` dict: either the literal string
`"thumbnail"` or a `base.MipIndex`. -/
inductive VtfKey
  | thumb
  | idx (i : MipIndex)
deriving DecidableEq

/-- The `Vtf` texture state after `parse`.  `cma` stores the raw CMA
float payload (for a `flags == 0x02` resource, the 4 bytes packed from
the offset slot). -/
structure Vtf where
  header : Option VtfHeader
  resources : List (ResTag × Resource)
  cma : Option Bytes
  max_size : Nat × Nat
  num_frames : Nat
  num_mipmaps : Nat
  thumbnail_format : Int
  thumbnail_size : Nat × Nat
  mipmap_depth : Option Nat
  mipmaps : List (VtfKey × Bytes)
  raw_data : Option Bytes
deriving DecidableEq

/-- Key/size order of the cubemap mipmap dict comprehension in
`Vtf.parse`: `for mip, mip_size in reversed([*enumerate(mip_sizes)])
for frame in range(num_frames) for face in base.Face` — mip levels
DESCENDING on the outside. -/
def vtfOrderCubemap (numFrames : Nat) (sizes : List Nat) :
    List (VtfKey × Nat) :=
  sizes.enum.reverse.flatMap fun p =>
    (List.range numFrames).flatMap fun frame =>
      Face.all.map fun face => (VtfKey.idx ⟨p.1, frame, some face⟩, p.2)

/-- Key/size order of the flat mipmap dict comprehension in `Vtf.parse`:
same nesting without the face loop. -/
def vtfOrderFlat (numFrames : Nat) (sizes : List Nat) :
    List (VtfKey × Nat) :=
  sizes.enum.reverse.flatMap fun p =>
    (List.range numFrames).map fun frame =>
      (VtfKey.idx ⟨p.1, frame, none⟩, p.2)

/-- Final stage of `Vtf.parse` (`vtf.py` lines 298-321): optional seek
to the Image Data resource, unknown-bpp fallback (unreachable for the
validated header format), then the mipmap dict comprehension. -/
def Vtf.parseMips (t0 : Vtf) (header : VtfHeader) (s : ByteStream) :
    Except PyErr Vtf :=
  let sImg : ByteStream :=
    match lookupKV t0.resources ResTag.imageData with
    | some r => ⟨s.data, r.offset⟩
    | none => s
  match Vtf.bytes_per_pixel_x2 header.format with
  | none =>
    let (rest, _) := bsReadAll sImg
    pure { t0 with raw_data := some rest }
  | some _ =>
    let sizes :=
      Vtf.mip_sizes header.width header.height header.format t0.num_mipmaps
    if header.flags.testBit 14 then
      let (ms, _) := readSeq sImg (vtfOrderCubemap header.num_frames sizes)
      pure { t0 with mipmaps := t0.mipmaps ++ ms }
    else
      let (ms, _) := readSeq sImg (vtfOrderFlat header.num_frames sizes)
      pure { t0 with mipmaps := t0.mipmaps ++ ms }

/-- Thumbnail stage of `Vtf.parse` (`vtf.py` lines 283-297): optional
seek to the Thumbnail resource; a `NONE` thumbnail asserts a zero size,
a known-bpp thumbnail is read under the `"thumbnail"` key, and the
unknown-bpp fallback (unreachable for a validated thumbnail format)
stores the remaining payload as `raw_data`. -/
def Vtf.parseThumb (t0 : Vtf) (header : VtfHeader) (s : ByteStream) :
    Except PyErr Vtf := do
  let sTh : ByteStream :=
    match lookupKV t0.resources ResTag.thumbData with
    | some r => ⟨s.data, r.offset⟩
    | none => s
  if t0.thumbnail_format = -1 then do
    pyAssert (t0.thumbnail_size = (0, 0))
    Vtf.parseMips t0 header sTh
  else
    match Vtf.bytes_per_pixel_x2 t0.thumbnail_format with
    | some _ => do
      pyAssert (¬ t0.thumbnail_size = (0, 0))
      let (tb, s2) := bsRead sTh
        ((Vtf.mip_data_size t0.thumbnail_size.1 t0.thumbnail_size.2 0
          t0.thumbnail_format).getD 0)
      Vtf.parseMips { t0 with mipmaps := t0.mipmaps ++ [(VtfKey.thumb, tb)] }
        header s2
    | none =>
      let (rest, _) := bsReadAll sTh
      pure { t0 with raw_data := some rest }

/-- CMA stage of `Vtf.parse` (`vtf.py` lines 277-282): decode the
Cubemap Multiply Ambient resource if present (single packed entry in
the offset slot when `flags == 0x02`, else a seek to `offset` and a
hard `"I{num_frames}f"` read with its size assert), reset to the end of
the header, then `assert first_frame == 0`. -/
def Vtf.parseCma (t0 : Vtf) (header : VtfHeader) (s : ByteStream) :
    Except PyErr Vtf := do
  let cma ← match lookupKV t0.resources ResTag.cmaTag with
    | some r =>
      if r.flags = 2 then
        pure (some (writeLE 4 r.offset))
      else do
        let (blob, _) ← readExact ⟨s.data, r.offset⟩ (4 + 4 * header.num_frames)
        pyAssert (fromLE (blob.take 4) = header.num_frames * 4)
        pure (some (blob.drop 4))
    | none => pure (none : Option Bytes)
  pyAssert (header.first_frame = 0)
  Vtf.parseThumb { t0 with cma := cma } header s

/-- Resource stage of `Vtf.parse` (`vtf.py` lines 266-276): the v7.3+
zero paddings and resource dictionary, then the
`assert stream.tell() == header_size`, assembling the texture state the
later stages extend. -/
def Vtf.parseRes (header : VtfHeader) (minor nm : Nat) (tf : Int)
    (ts : Nat × Nat) (depth : Option Nat) (s : ByteStream) :
    Except PyErr Vtf := do
  let (resources, s) ←
    if 3 ≤ minor then do
      let (z3, s2) := bsRead s 3
      pyAssert (z3 = List.replicate 3 0)
      let (nres, s3) ← readU32 s2
      let (z8, s4) := bsRead s3 8
      pyAssert (z8 = List.replicate 8 0)
      let (rs, s5) ← readResources nres s4
      pure (resourcesDict rs, s5)
    else pure (([] : List (ResTag × Resource)), s)
  pyAssert (s.pos = header.header_size)
  let t0 : Vtf :=
    { header := some header, resources := resources, cma := none,
      max_size := (header.width, header.height),
      num_frames := header.num_frames, num_mipmaps := nm,
      thumbnail_format := tf, thumbnail_size := ts,
      mipmap_depth := depth, mipmaps := [], raw_data := none }
  Vtf.parseCma t0 header s

/-- Depth stage of `Vtf.parse` (`vtf.py` lines 264-265): the v7.2+
`mipmap_depth` field. -/
def Vtf.parseDepth (header : VtfHeader) (minor nm : Nat) (tf : Int)
    (ts : Nat × Nat) (s : ByteStream) : Except PyErr Vtf := do
  let (mipmap_depth, s) ←
    if 2 ≤ minor then do
      let (d, s2) ← readU16 s
      pure (some d, s2)
    else pure ((none : Option Nat), s)
  Vtf.parseRes header minor nm tf ts mipmap_depth s

/-- Alignment stage of `Vtf.parse` (`vtf.py` lines 258-263): the
oddly-aligned trailing header fields (`num_mipmaps`, the SIGNED
thumbnail format with its `Format(...)` validation, the thumbnail
size) and the v7.1 padding byte. -/
def Vtf.parseAlign (header : VtfHeader) (minor : Nat) (s : ByteStream) :
    Except PyErr Vtf := do
  let (num_mipmaps, s) ← readU8 s
  let (tfv, s) ← readI32 s
  let thumbnail_format ←
    if VtfFormat.isValid tfv then pure tfv
    else Except.error PyErr.valueError
  let (ts1, s) ← readU8 s
  let (ts2, s) ← readU8 s
  let s ← if minor = 1 then do
      let (b, s2) := bsRead s 1
      pyAssert (b = [0])
      pure s2
    else pure s
  Vtf.parseDepth header minor num_mipmaps thumbnail_format (ts1, ts2) s

/-- `Vtf.parse` (`vtf.py` lines 243-321): magic assert, version gate
(`major == 7 and minor <= 5`, else `NotImplementedError`), `seek(-12)`
and the 56-byte header with its padding asserts, then the remaining
stages. -/
def Vtf.parse (data : Bytes) : Except PyErr Vtf := do
  let s : ByteStream := ⟨data, 0⟩
  let (m4, s0) := bsRead s 4
  pyAssert (m4 = vtfMagic)
  let (major, s1) ← readU32 s0
  let (minor, s2) ← readU32 s1
  if major = 7 ∧ minor ≤ 5 then do
    let (header, s3) ← VtfHeader.from_stream ⟨s2.data, s2.pos - 12⟩
    pyAssert (header.padding_1 = List.replicate 4 0)
    pyAssert (header.padding_2 = List.replicate 4 0)
    Vtf.parseAlign header minor s3
  else Except.error PyErr.notImplemented

/-- `Vtf.is_cubemap`: `Flags.ENVMAP (0x4000) in header.flags`. -/
def Vtf.is_cubemap (t : Vtf) : Bool :=
  match t.header with
  | some h => h.flags.testBit 14
  | none => false

/-- `Vtf.as_bytes` (`vtf.py` lines 347-403).  Line 355 evaluates
`self.low_res_format.value`, but `parse` assigns `thumbnail_format` and
no code path ever assigns `low_res_format`, so the attribute lookup
raises `AttributeError` unconditionally (after mutating
`header.header_size` and filling a local buffer that is then
discarded); the rest of the method is unreachable. -/
def Vtf.as_bytes (_ : Vtf) : Except PyErr Bytes :=
  Except.error PyErr.attributeError

def c1ddsx : Bytes :=
  ddsMagic ++ writeLE 4 0x7C ++ writeLE 4 0 ++ writeLE 4 2 ++ writeLE 4 2 ++
  writeLE 4 0 ++ writeLE 4 0 ++ writeLE 4 2 ++ List.replicate 44 0 ++
  writeLE 4 0x20 ++ writeLE 4 0x04 ++
  dx10Magic ++ List.replicate 20 0 ++ writeLE 4 0 ++ List.replicate 16 0 ++
  writeLE 4 0x57 ++ writeLE 4 3 ++ writeLE 4 4 ++ writeLE 4 6 ++ writeLE 4 0 ++
  (List.range 120).map (fun i => i + 100)

def c9x : Bytes :=
  ddsMagic ++ writeLE 4 0x7C ++ writeLE 4 0 ++ writeLE 4 4 ++ writeLE 4 4 ++
  writeLE 4 0 ++ writeLE 4 0 ++ writeLE 4 0 ++ List.replicate 44 0 ++
  writeLE 4 0x20 ++ writeLE 4 0x04 ++ [0x44, 0x58, 0x54, 0x31]

def c9t : Dds :=
  { header := some ⟨ddsMagic, 0x7C, 0, 4, 4, 0, 0, 0, List.replicate 44 0,
      0x20, 0x04⟩,
    header_2 := some ⟨none, [], 0, [], 0x47, 3, 0, 1, 0⟩,
    format := 0x47, max_size := (4, 4), num_mipmaps := 0, num_frames := 1,
    mipmaps := [], raw_data := none }

def c10x : Bytes :=
  ddsMagic ++ writeLE 4 0x7C ++ writeLE 4 0 ++ writeLE 4 4 ++ writeLE 4 4 ++
  writeLE 4 0 ++ writeLE 4 0 ++ writeLE 4 1 ++ List.replicate 44 0 ++
  writeLE 4 0x20 ++ writeLE 4 0x04 ++ [0x44, 0x58, 0x54, 0x31] ++
  [1, 2, 3, 4, 5, 6, 7, 8]

def c10t : Dds :=
  { header := some ⟨ddsMagic, 0x7C, 0, 4, 4, 0, 0, 1, List.replicate 44 0,
      0x20, 0x04⟩,
    header_2 := some ⟨none, [], 0, [], 0x47, 3, 0, 1, 0⟩,
    format := 0x47, max_size := (4, 4), num_mipmaps := 1, num_frames := 1,
    mipmaps := [(⟨0, 0, none⟩, [1, 2, 3, 4, 5, 6, 7, 8])], raw_data := none }

/-- Written from the claim words (C2): the parse slicing order the claim
asserts for DDS and VTF — frame outermost, then face, then mip
ascending. -/
def claimOrderParse (numFrames : Nat) (faces : List (Option Face))
    (sizes : List Nat) : List (MipIndex × Nat) :=
  (List.range numFrames).flatMap fun frame =>
    faces.flatMap fun face =>
      sizes.enum.map fun p => (⟨p.1, frame, face⟩, p.2)

/-- Written from the claim words (C2): the serialize key order the claim
asserts — frame, then face, then mip descending. -/
def claimOrderSer (numFrames : Nat) (faces : List (Option Face))
    (numMips : Nat) : List MipIndex :=
  (List.range numFrames).flatMap fun frame =>
    faces.flatMap fun face =>
      (List.range numMips).reverse.map fun mip => ⟨mip, frame, face⟩

/-- Written from the amended claim words (C2): the order the VTF parse
actually slices in — mip DESCENDING outermost, then frame, then face. -/
def claimOrderVtfDescOuter (numFrames : Nat) (faces : List (Option Face))
    (sizes : List Nat) : List (VtfKey × Nat) :=
  sizes.enum.reverse.flatMap fun p =>
    (List.range numFrames).flatMap fun frame =>
      faces.map fun face => (VtfKey.idx ⟨p.1, frame, face⟩, p.2)

def c2x : Bytes :=
  vtfMagic ++ writeLE 4 7 ++ writeLE 4 0 ++ writeLE 4 63 ++
  writeLE 2 2 ++ writeLE 2 2 ++ writeLE 4 0 ++ writeLE 2 1 ++
  writeLE 2 0 ++ List.replicate 4 0 ++ List.replicate 12 0 ++
  List.replicate 4 0 ++ List.replicate 4 0 ++ writeLE 4 5 ++
  [2] ++ writeLE 4 0xFFFFFFFF ++ [0, 0] ++
  (List.range 40).map (fun i => i + 10)

def c3x : Bytes :=
  ddsMagic ++ writeLE 4 0x7C ++ writeLE 4 0 ++ writeLE 4 2 ++ writeLE 4 2 ++
  writeLE 4 0 ++ writeLE 4 0 ++ writeLE 4 1 ++ List.replicate 44 0 ++
  writeLE 4 0x20 ++ writeLE 4 0x04 ++
  dx10Magic ++ List.replicate 20 0 ++ writeLE 4 0 ++ List.replicate 16 0 ++
  writeLE 4 0x1C ++ writeLE 4 3 ++ writeLE 4 0 ++ writeLE 4 1 ++
  writeLE 4 0 ++ [1, 2, 3]

def c3t : Dds :=
  { header := some ⟨ddsMagic, 0x7C, 0, 2, 2, 0, 0, 1, List.replicate 44 0,
      0x20, 0x04⟩,
    header_2 := some ⟨some dx10Magic, List.replicate 20 0, 0,
      List.replicate 16 0, 0x1C, 3, 0, 1, 0⟩,
    format := 0x1C, max_size := (2, 2), num_mipmaps := 1, num_frames := 1,
    mipmaps := [], raw_data := some [1, 2, 3] }

def c4x : Bytes :=
  vtfMagic ++ writeLE 4 7 ++ writeLE 4 0 ++ writeLE 4 63 ++
  writeLE 2 1 ++ writeLE 2 1 ++ writeLE 4 0 ++ writeLE 2 1 ++
  writeLE 2 0 ++ List.replicate 4 0 ++ List.replicate 12 0 ++
  List.replicate 4 0 ++ List.replicate 4 0 ++ writeLE 4 5 ++
  [1] ++ writeLE 4 0 ++ [1, 1] ++
  (List.range 40).map (fun i => i + 10)

def c4t : Vtf :=
  { header := some ⟨vtfMagic, 7, 0, 63, 1, 1, 0, 1, 0,
      List.replicate 4 0, List.replicate 12 0, List.replicate 4 0,
      List.replicate 4 0, 5⟩,
    resources := [], cma := none, max_size := (1, 1), num_frames := 1,
    num_mipmaps := 1, thumbnail_format := 0, thumbnail_size := (1, 1),
    mipmap_depth := none,
    mipmaps := [(VtfKey.thumb, (List.range 32).map (fun i => i + 10)),
      (VtfKey.idx ⟨0, 0, none⟩, (List.range 8).map (fun i => i + 42))],
    raw_data := none }

/-! ## General lemmas -/

@[simp] theorem bindOk {α β : Type} (a : α) (f : α → Except PyErr β) :
    (Except.ok a >>= f) = f a := rfl

@[simp] theorem bindErr {α β : Type} (e : PyErr) (f : α → Except PyErr β) :
    ((Except.error e : Except PyErr α) >>= f) = .error e := rfl

@[simp] theorem pureIsOk {α : Type} (a : α) : (pure a : Except PyErr α) = .ok a := rfl

@[simp] theorem bindOkB {α β : Type} (a : α) (f : α → Except PyErr β) :
    (bind (Except.ok a) f : Except PyErr β) = f a := rfl

@[simp] theorem bindErrB {α β : Type} (e : PyErr) (f : α → Except PyErr β) :
    (bind (Except.error e : Except PyErr α) f : Except PyErr β) = .error e := rfl

theorem readExact_err {s : ByteStream} {n : Nat} {e : PyErr}
    (h : readExact s n = .error e) : e = .truncated := by
  unfold readExact at h
  split at h
  split at h
  · exact Except.noConfusion h
  · injection h with h2
    exact h2.symm

theorem readU8_err {s : ByteStream} {e : PyErr}
    (h : readU8 s = .error e) : e = .truncated := by
  unfold readU8 at h
  cases hr : readExact s 1 with
  | ok a => rw [hr] at h; simp at h
  | error e' => rw [hr] at h; simp at h; exact h ▸ readExact_err hr

theorem readU16_err {s : ByteStream} {e : PyErr}
    (h : readU16 s = .error e) : e = .truncated := by
  unfold readU16 at h
  cases hr : readExact s 2 with
  | ok a => rw [hr] at h; simp at h
  | error e' => rw [hr] at h; simp at h; exact h ▸ readExact_err hr

theorem readU32_err {s : ByteStream} {e : PyErr}
    (h : readU32 s = .error e) : e = .truncated := by
  unfold readU32 at h
  cases hr : readExact s 4 with
  | ok a => rw [hr] at h; simp at h
  | error e' => rw [hr] at h; simp at h; exact h ▸ readExact_err hr

theorem pyAssert_err {b : Bool} {e : PyErr}
    (h : pyAssert b = .error e) : e = .assertFail := by
  unfold pyAssert at h
  cases b with
  | false =>
    injection h with h2
    exact h2.symm
  | true => exact Except.noConfusion h

theorem pyAssert_ok {b : Bool} {u : Unit}
    (h : pyAssert b = .ok u) : b = true := by
  cases b with
  | false => simp [pyAssert] at h
  | true => rfl

@[simp] theorem pyAssert_true : pyAssert true = .ok () := rfl
theorem readExact_of_bsRead {s : ByteStream} {a : Bytes} {s1 : ByteStream} {n : Nat}
    (h : bsRead s n = (a, s1)) (ha : a.length = n) :
    readExact s n = .ok (a, s1) := by
  unfold readExact
  rw [h]
  dsimp only
  rw [if_pos ha]

@[simp] theorem pyAssert_false : pyAssert false = .error .assertFail := rfl


theorem toLE_length (k v : Nat) : (toLE k v).length = k := by
  induction k generalizing v with
  | zero => rfl
  | succ k ih => simp [toLE, ih]

theorem fromLE_toLE (k v : Nat) : fromLE (toLE k v) = v % 256 ^ k := by
  induction k generalizing v with
  | zero => simp [toLE, fromLE, Nat.mod_one]
  | succ k ih =>
    rw [toLE, fromLE, ih, pow_succ']
    exact (Nat.mod_mul).symm

/-- One stream read at a concatenation boundary. -/
theorem bsRead_at {x : Bytes} (pre a rest : Bytes) {p n : Nat}
    (hx : x = pre ++ (a ++ rest)) (hp : p = pre.length) (ha : a.length = n) :
    bsRead ⟨x, p⟩ n = (a, ⟨x, p + n⟩) := by
  subst hx hp ha
  simp [bsRead, List.drop_left, List.take_left]

/-- One `read_struct` fixed-width read at a concatenation boundary. -/
theorem readExact_at {x : Bytes} (pre a rest : Bytes) {p n : Nat}
    (hx : x = pre ++ (a ++ rest)) (hp : p = pre.length) (ha : a.length = n) :
    readExact ⟨x, p⟩ n = .ok (a, ⟨x, p + n⟩) := by
  unfold readExact
  rw [bsRead_at pre a rest hx hp ha]
  simp [ha]

theorem readU32_at {x : Bytes} (pre rest : Bytes) {p : Nat} (v : Nat)
    (hx : x = pre ++ (toLE 4 v ++ rest)) (hp : p = pre.length) (hv : v < 2 ^ 32) :
    readU32 ⟨x, p⟩ = .ok (v, ⟨x, p + 4⟩) := by
  unfold readU32
  rw [readExact_at pre (toLE 4 v) rest hx hp (toLE_length 4 v)]
  have : fromLE (toLE 4 v) = v := by
    rw [fromLE_toLE]
    exact Nat.mod_eq_of_lt (by norm_num at hv ⊢; omega)
  simp [this]

theorem readU16_at {x : Bytes} (pre rest : Bytes) {p : Nat} (v : Nat)
    (hx : x = pre ++ (toLE 2 v ++ rest)) (hp : p = pre.length) (hv : v < 2 ^ 16) :
    readU16 ⟨x, p⟩ = .ok (v, ⟨x, p + 2⟩) := by
  unfold readU16
  rw [readExact_at pre (toLE 2 v) rest hx hp (toLE_length 2 v)]
  have : fromLE (toLE 2 v) = v := by
    rw [fromLE_toLE]
    exact Nat.mod_eq_of_lt (by norm_num at hv ⊢; omega)
  simp [this]

theorem readU8_at {x : Bytes} (pre rest : Bytes) {p : Nat} (v : Nat)
    (hx : x = pre ++ ([v] ++ rest)) (hp : p = pre.length) :
    readU8 ⟨x, p⟩ = .ok (v, ⟨x, p + 1⟩) := by
  unfold readU8
  rw [readExact_at pre [v] rest hx hp (show ([v] : Bytes).length = 1 from rfl)]
  simp [fromLE]

theorem bsReadAll_at {x : Bytes} (pre rest : Bytes) {p : Nat}
    (hx : x = pre ++ rest) (hp : p = pre.length) :
    (bsReadAll ⟨x, p⟩).1 = rest := by
  subst hx hp
  simp [bsReadAll, List.drop_left]

/-- The keys of a sequential-read comprehension are the requested keys. -/
theorem readSeq_keys {α : Type} (s : ByteStream) (l : List (α × Nat)) :
    (readSeq s l).1.map Prod.fst = l.map Prod.fst := by
  induction l generalizing s with
  | nil => rfl
  | cons p rest ih => simp [readSeq, ih]

/-! ## PVR lemmas -/

/-- Characterization of a successful `Pvr.parseBody`: the `__init__`
defaults `num_frames = num_mipmaps = 1` survive, the stored modes are
valid enum members, and the result is either the raw-data fallback
(pixel mode without a `bytes_per_pixel` entry, or declared `data_size`
different from the computed mip total plus 8) or a structured
single-mip read with no raw data. -/
theorem Pvr.parseBody_ok_inv {gbix : Option Bytes} {magic : Bytes}
    {s : ByteStream} {t : Pvr}
    (H : Pvr.parseBody gbix magic s = .ok t) :
    t.num_frames = 1 ∧ t.num_mipmaps = 1 ∧ t.gbix = gbix ∧
    PixelMode.isValid t.format.pixel = true ∧
    TextureMode.isValid t.format.texture = true ∧
    ((Pvr.bytes_per_pixel_x8 t.format.pixel = none ∧
        (∃ r, t.raw_data = some r) ∧ t.mipmaps = []) ∨
     (∃ bpp8, Pvr.bytes_per_pixel_x8 t.format.pixel = some bpp8 ∧
       (((Pvr.mip_sizes t.max_size.1 t.max_size.2 bpp8 1).sum + 8 ≠ t.data_size ∧
          (∃ r, t.raw_data = some r) ∧ t.mipmaps = []) ∨
        ((Pvr.mip_sizes t.max_size.1 t.max_size.2 bpp8 1).sum + 8 = t.data_size ∧
          t.raw_data = none ∧
          ∃ s2, t.mipmaps =
            (readSeq s2 (Pvr.mipOrder
              (Pvr.mip_sizes t.max_size.1 t.max_size.2 bpp8 1))).1)))) := by
  unfold Pvr.parseBody at H
  by_cases hmg : magic = pvrtMagic
  case neg => simp [pyAssert, hmg] at H
  subst hmg
  rw [show pyAssert (decide (pvrtMagic = pvrtMagic)) = .ok () from rfl] at H
  simp only [pureIsOk, bindOk, bindOkB] at H
  cases h1 : readU32 s with
  | error e => rw [h1] at H; simp at H
  | ok p1 =>
  obtain ⟨ds, s1⟩ := p1
  rw [h1] at H
  simp only [pureIsOk, bindOk, bindOkB] at H
  cases h2 : readU8 s1 with
  | error e => rw [h2] at H; simp at H
  | ok p2 =>
  obtain ⟨pm, s2⟩ := p2
  rw [h2] at H
  simp only [pureIsOk, bindOk, bindOkB] at H
  cases h3 : readU8 s2 with
  | error e => rw [h3] at H; simp at H
  | ok p3 =>
  obtain ⟨tm, s3⟩ := p3
  rw [h3] at H
  simp only [pureIsOk, bindOk, bindOkB] at H
  by_cases hpm : PixelMode.isValid pm = true
  case neg => simp [hpm] at H
  rw [if_pos hpm] at H
  by_cases htm : TextureMode.isValid tm = true
  case neg => simp [htm] at H
  rw [if_pos htm] at H
  cases h4 : readU16 s3 with
  | error e => rw [h4] at H; simp at H
  | ok p4 =>
  obtain ⟨pad, s4⟩ := p4
  rw [h4] at H
  simp only [pureIsOk, bindOk, bindOkB] at H
  by_cases hpad : pad = 0
  case neg => simp [pyAssert, hpad] at H
  subst hpad
  rw [show pyAssert (decide ((0 : Nat) = 0)) = .ok () from rfl] at H
  simp only [pureIsOk, bindOk, bindOkB] at H
  cases h5 : readU16 s4 with
  | error e => rw [h5] at H; simp at H
  | ok p5 =>
  obtain ⟨w, s5⟩ := p5
  rw [h5] at H
  simp only [pureIsOk, bindOk, bindOkB] at H
  cases h6 : readU16 s5 with
  | error e => rw [h6] at H; simp at H
  | ok p6 =>
  obtain ⟨ht, s6⟩ := p6
  rw [h6] at H
  simp only [pureIsOk, bindOk, bindOkB] at H
  cases hbpp : Pvr.bytes_per_pixel_x8 pm with
  | none =>
    rw [hbpp] at H
    dsimp only at H
    rcases hra : bsReadAll s6 with ⟨rest, s7⟩
    rw [hra] at H
    simp only [pureIsOk, Except.ok.injEq] at H
    subst H
    exact ⟨rfl, rfl, rfl, hpm, htm, Or.inl ⟨hbpp, ⟨rest, rfl⟩, rfl⟩⟩
  | some bpp8 =>
    rw [hbpp] at H
    dsimp only at H
    by_cases hgate :
        (Pvr.mip_sizes w ht bpp8 Pvr.init.num_mipmaps).sum + 8 ≠ ds
    · rw [if_pos hgate] at H
      rcases hra : bsReadAll s6 with ⟨rest, s7⟩
      rw [hra] at H
      simp only [pureIsOk, Except.ok.injEq] at H
      subst H
      exact ⟨rfl, rfl, rfl, hpm, htm,
        Or.inr ⟨bpp8, hbpp, Or.inl ⟨hgate, ⟨rest, rfl⟩, rfl⟩⟩⟩
    · rw [if_neg hgate] at H
      rcases hms : readSeq s6 (Pvr.mipOrder
          (Pvr.mip_sizes w ht bpp8 Pvr.init.num_mipmaps)) with ⟨ms, s7⟩
      rw [hms] at H
      simp only [pureIsOk, Except.ok.injEq] at H
      subst H
      push_neg at hgate
      refine ⟨rfl, rfl, rfl, hpm, htm,
        Or.inr ⟨bpp8, hbpp, Or.inr ⟨hgate, rfl, ⟨s6, ?_⟩⟩⟩⟩
      show ms = (readSeq s6 (Pvr.mipOrder
        (Pvr.mip_sizes w ht bpp8 Pvr.init.num_mipmaps))).1
      rw [hms]

/-- A successful `Pvr.parse` passes through `Pvr.parseBody`. -/
theorem Pvr.parse_ok_body {x : Bytes} {t : Pvr} (H : Pvr.parse x = .ok t) :
    ∃ gb mg s2, Pvr.parseBody gb mg s2 = .ok t := by
  unfold Pvr.parse at H
  dsimp only at H
  rcases hm : bsRead ⟨x, 0⟩ 4 with ⟨m0, s0⟩
  rw [hm] at H
  dsimp only at H
  by_cases hg : m0 = gbixMagic
  · rw [if_pos hg] at H
    cases h1 : readU32 s0 with
    | error e => rw [h1] at H; simp at H
    | ok p1 =>
    obtain ⟨len, s1⟩ := p1
    rw [h1] at H
    simp only [pureIsOk, bindOk, bindOkB] at H
    rcases h2 : bsRead s1 len with ⟨g, s2⟩
    rw [h2] at H
    dsimp only at H
    rcases h3 : bsRead s2 4 with ⟨mg, s3⟩
    rw [h3] at H
    dsimp only at H
    exact ⟨some g, mg, s3, H⟩
  · rw [if_neg hg] at H
    exact ⟨none, m0, s0, H⟩

/-- `Pvr.parseBody` can raise `AssertionError`, `TruncatedInput` or
`ValueError`, but never `NotImplementedError`: the `_MIPS` guard is
commented out in the source. -/
theorem Pvr.parseBody_no_notImpl (gbix : Option Bytes) (magic : Bytes)
    (s : ByteStream) : Pvr.parseBody gbix magic s ≠ .error .notImplemented := by
  intro H
  unfold Pvr.parseBody at H
  by_cases hmg : magic = pvrtMagic
  case neg => simp [pyAssert, hmg] at H
  subst hmg
  rw [show pyAssert (decide (pvrtMagic = pvrtMagic)) = .ok () from rfl] at H
  simp only [pureIsOk, bindOk, bindOkB] at H
  cases h1 : readU32 s with
  | error e =>
    rw [h1] at H
    simp only [bindErr, bindErrB, Except.error.injEq] at H
    subst H
    exact PyErr.noConfusion (readU32_err h1)
  | ok p1 =>
  obtain ⟨ds, s1⟩ := p1
  rw [h1] at H
  simp only [pureIsOk, bindOk, bindOkB] at H
  cases h2 : readU8 s1 with
  | error e =>
    rw [h2] at H
    simp only [bindErr, bindErrB, Except.error.injEq] at H
    subst H
    exact PyErr.noConfusion (readU8_err h2)
  | ok p2 =>
  obtain ⟨pm, s2⟩ := p2
  rw [h2] at H
  simp only [pureIsOk, bindOk, bindOkB] at H
  cases h3 : readU8 s2 with
  | error e =>
    rw [h3] at H
    simp only [bindErr, bindErrB, Except.error.injEq] at H
    subst H
    exact PyErr.noConfusion (readU8_err h3)
  | ok p3 =>
  obtain ⟨tm, s3⟩ := p3
  rw [h3] at H
  simp only [pureIsOk, bindOk, bindOkB] at H
  by_cases hpm : PixelMode.isValid pm = true
  case neg => simp [hpm] at H
  rw [if_pos hpm] at H
  by_cases htm : TextureMode.isValid tm = true
  case neg => simp [htm] at H
  rw [if_pos htm] at H
  cases h4 : readU16 s3 with
  | error e =>
    rw [h4] at H
    simp only [bindErr, bindErrB, Except.error.injEq] at H
    subst H
    exact PyErr.noConfusion (readU16_err h4)
  | ok p4 =>
  obtain ⟨pad, s4⟩ := p4
  rw [h4] at H
  simp only [pureIsOk, bindOk, bindOkB] at H
  by_cases hpad : pad = 0
  case neg => simp [pyAssert, hpad] at H
  subst hpad
  rw [show pyAssert (decide ((0 : Nat) = 0)) = .ok () from rfl] at H
  simp only [pureIsOk, bindOk, bindOkB] at H
  cases h5 : readU16 s4 with
  | error e =>
    rw [h5] at H
    simp only [bindErr, bindErrB, Except.error.injEq] at H
    subst H
    exact PyErr.noConfusion (readU16_err h5)
  | ok p5 =>
  obtain ⟨w, s5⟩ := p5
  rw [h5] at H
  simp only [pureIsOk, bindOk, bindOkB] at H
  cases h6 : readU16 s5 with
  | error e =>
    rw [h6] at H
    simp only [bindErr, bindErrB, Except.error.injEq] at H
    subst H
    exact PyErr.noConfusion (readU16_err h6)
  | ok p6 =>
  obtain ⟨ht, s6⟩ := p6
  rw [h6] at H
  simp only [pureIsOk, bindOk, bindOkB] at H
  cases hbpp : Pvr.bytes_per_pixel_x8 pm with
  | none =>
    rw [hbpp] at H
    dsimp only at H
    simp at H
  | some bpp8 =>
    rw [hbpp] at H
    dsimp only at H
    split at H <;> simp at H

/-- `Pvr.parse` never raises `NotImplementedError`. -/
theorem Pvr.parse_no_notImpl (x : Bytes) :
    Pvr.parse x ≠ .error .notImplemented := by
  intro H
  unfold Pvr.parse at H
  dsimp only at H
  rcases hm : bsRead ⟨x, 0⟩ 4 with ⟨m0, s0⟩
  rw [hm] at H
  dsimp only at H
  by_cases hg : m0 = gbixMagic
  · rw [if_pos hg] at H
    cases h1 : readU32 s0 with
    | error e =>
      rw [h1] at H
      simp only [bindErr, bindErrB, Except.error.injEq] at H
      subst H
      exact PyErr.noConfusion (readU32_err h1)
    | ok p1 =>
    obtain ⟨len, s1⟩ := p1
    rw [h1] at H
    simp only [pureIsOk, bindOk, bindOkB] at H
    rcases h2 : bsRead s1 len with ⟨g, s2⟩
    rw [h2] at H
    dsimp only at H
    rcases h3 : bsRead s2 4 with ⟨mg, s3⟩
    rw [h3] at H
    dsimp only at H
    exact Pvr.parseBody_no_notImpl (some g) mg s3 H
  · rw [if_neg hg] at H
    exact Pvr.parseBody_no_notImpl none m0 s0 H

/-- The value of a plain stream read at a concatenation boundary
(regardless of whether enough bytes remain). -/
theorem bsRead_val {x : Bytes} (pre rest : Bytes) {p n : Nat}
    (hx : x = pre ++ rest) (hp : p = pre.length) :
    (bsRead ⟨x, p⟩ n).1 = rest.take n := by
  subst hx hp
  simp [bsRead, List.drop_left]

/-- Forward evaluation of `Pvr.parseBody` on a well-formed PVRT chunk
with a valid, recognized pixel mode: a structured single-mip read when
the declared `data_size` matches the computed mip total plus 8, and the
raw-data fallback otherwise. -/
theorem Pvr.parseBody_forward (gbix : Option Bytes) {x : Bytes}
    (pre payload : Bytes) {p : Nat} (ds pm tm w h : Nat)
    (hx : x = pre ++ (toLE 4 ds ++ ([pm] ++ ([tm] ++ (toLE 2 0 ++
      (toLE 2 w ++ (toLE 2 h ++ payload)))))))
    (hp : p = pre.length)
    (hds : ds < 2 ^ 32) (hw : w < 2 ^ 16) (hh : h < 2 ^ 16)
    (hpm : PixelMode.isValid pm = true) (htm : TextureMode.isValid tm = true)
    {bpp8 : Nat} (hbpp : Pvr.bytes_per_pixel_x8 pm = some bpp8) :
    Pvr.parseBody gbix pvrtMagic ⟨x, p⟩ =
      if ceilMul8 (w * h) bpp8 + 8 ≠ ds then
        .ok { gbix := gbix, data_size := ds, format := ⟨pm, tm⟩,
              max_size := (w, h), num_frames := 1, num_mipmaps := 1,
              mipmaps := [], raw_data := some payload }
      else
        .ok { gbix := gbix, data_size := ds, format := ⟨pm, tm⟩,
              max_size := (w, h), num_frames := 1, num_mipmaps := 1,
              mipmaps := [(⟨0, 0, none⟩, payload.take (ceilMul8 (w * h) bpp8))],
              raw_data := none } := by
  have hx2 : x = (pre ++ toLE 4 ds) ++ ([pm] ++ ([tm] ++ (toLE 2 0 ++
      (toLE 2 w ++ (toLE 2 h ++ payload))))) := by
    rw [hx]; simp only [List.append_assoc]
  have hp2 : p + 4 = (pre ++ toLE 4 ds).length := by
    simp [List.length_append, toLE_length, hp]
  have hx3 : x = ((pre ++ toLE 4 ds) ++ [pm]) ++ ([tm] ++ (toLE 2 0 ++
      (toLE 2 w ++ (toLE 2 h ++ payload)))) := by
    rw [hx]; simp only [List.append_assoc]
  have hp3 : p + 4 + 1 = ((pre ++ toLE 4 ds) ++ [pm]).length := by
    simp [List.length_append, toLE_length, hp]
  have hx4 : x = (((pre ++ toLE 4 ds) ++ [pm]) ++ [tm]) ++ (toLE 2 0 ++
      (toLE 2 w ++ (toLE 2 h ++ payload))) := by
    rw [hx]; simp only [List.append_assoc]
  have hp4 : p + 4 + 1 + 1 = (((pre ++ toLE 4 ds) ++ [pm]) ++ [tm]).length := by
    simp [List.length_append, toLE_length, hp]
  have hx5 : x = ((((pre ++ toLE 4 ds) ++ [pm]) ++ [tm]) ++ toLE 2 0) ++
      (toLE 2 w ++ (toLE 2 h ++ payload)) := by
    rw [hx]; simp only [List.append_assoc]
  have hp5 : p + 4 + 1 + 1 + 2 =
      ((((pre ++ toLE 4 ds) ++ [pm]) ++ [tm]) ++ toLE 2 0).length := by
    simp [List.length_append, toLE_length, hp]
  have hx6 : x = (((((pre ++ toLE 4 ds) ++ [pm]) ++ [tm]) ++ toLE 2 0) ++
      toLE 2 w) ++ (toLE 2 h ++ payload) := by
    rw [hx]; simp only [List.append_assoc]
  have hp6 : p + 4 + 1 + 1 + 2 + 2 =
      ((((((pre ++ toLE 4 ds) ++ [pm]) ++ [tm]) ++ toLE 2 0) ++
        toLE 2 w)).length := by
    simp [List.length_append, toLE_length, hp]
  have hx7 : x = ((((((pre ++ toLE 4 ds) ++ [pm]) ++ [tm]) ++ toLE 2 0) ++
      toLE 2 w) ++ toLE 2 h) ++ payload := by
    rw [hx]; simp only [List.append_assoc]
  have hp7 : p + 4 + 1 + 1 + 2 + 2 + 2 =
      (((((((pre ++ toLE 4 ds) ++ [pm]) ++ [tm]) ++ toLE 2 0) ++
        toLE 2 w) ++ toLE 2 h)).length := by
    simp [List.length_append, toLE_length, hp]
  unfold Pvr.parseBody
  rw [show pyAssert (decide (pvrtMagic = pvrtMagic)) = .ok () from rfl]
  simp only [pureIsOk, bindOk, bindOkB]
  rw [readU32_at pre _ ds hx hp hds]
  simp only [pureIsOk, bindOk, bindOkB]
  rw [readU8_at (pre ++ toLE 4 ds) _ pm hx2 hp2]
  simp only [pureIsOk, bindOk, bindOkB]
  rw [readU8_at ((pre ++ toLE 4 ds) ++ [pm]) _ tm hx3 hp3]
  simp only [pureIsOk, bindOk, bindOkB]
  rw [if_pos hpm, if_pos htm]
  rw [readU16_at (((pre ++ toLE 4 ds) ++ [pm]) ++ [tm]) _ 0 hx4 hp4
    (by norm_num)]
  simp only [pureIsOk, bindOk, bindOkB]
  rw [show pyAssert (decide True) = .ok () from rfl]
  simp only [pureIsOk, bindOk, bindOkB]
  rw [readU16_at ((((pre ++ toLE 4 ds) ++ [pm]) ++ [tm]) ++ toLE 2 0) _ w
    hx5 hp5 hw]
  simp only [pureIsOk, bindOk, bindOkB]
  rw [readU16_at (((((pre ++ toLE 4 ds) ++ [pm]) ++ [tm]) ++ toLE 2 0) ++
    toLE 2 w) _ h hx6 hp6 hh]
  simp only [pureIsOk, bindOk, bindOkB]
  rw [hbpp]
  dsimp only
  have hsizes : Pvr.mip_sizes w h bpp8 Pvr.init.num_mipmaps =
      [ceilMul8 (w * h) bpp8] := by
    show Pvr.mip_sizes w h bpp8 1 = _
    simp [Pvr.mip_sizes, List.range_succ, Nat.shiftRight_zero]
  rw [hsizes]
  by_cases hgate : ceilMul8 (w * h) bpp8 + 8 ≠ ds
  · rw [if_pos (by simpa using hgate), if_pos hgate]
    have := bsReadAll_at (((((((pre ++ toLE 4 ds) ++ [pm]) ++ [tm]) ++
      toLE 2 0) ++ toLE 2 w) ++ toLE 2 h)) payload hx7 hp7
    rw [this]
    rfl
  · rw [if_neg (by simpa using hgate), if_neg hgate]
    have hord : Pvr.mipOrder [ceilMul8 (w * h) bpp8] =
        [(⟨0, 0, none⟩, ceilMul8 (w * h) bpp8)] := rfl
    rw [hord]
    have hval := bsRead_val (n := ceilMul8 (w * h) bpp8)
      ((((((pre ++ toLE 4 ds) ++ [pm]) ++ [tm]) ++ toLE 2 0) ++ toLE 2 w) ++
        toLE 2 h) payload hx7 hp7
    simp only [readSeq, hval]
    rfl

/-- Forward evaluation of `Pvr.parse` on a well-formed PVR image (optional
GBIX chunk plus PVRT chunk with recognized pixel mode). -/
theorem Pvr.parse_forward (gbix : Option Bytes) (ds pm tm w h : Nat)
    (payload : Bytes)
    (hgb : ∀ g, gbix = some g → g.length < 2 ^ 32)
    (hds : ds < 2 ^ 32) (hw : w < 2 ^ 16) (hh : h < 2 ^ 16)
    (hpm : PixelMode.isValid pm = true) (htm : TextureMode.isValid tm = true)
    {bpp8 : Nat} (hbpp : Pvr.bytes_per_pixel_x8 pm = some bpp8) :
    Pvr.parse (mkPvrBytes gbix ds pm tm w h payload) =
      if ceilMul8 (w * h) bpp8 + 8 ≠ ds then
        .ok { gbix := gbix, data_size := ds, format := ⟨pm, tm⟩,
              max_size := (w, h), num_frames := 1, num_mipmaps := 1,
              mipmaps := [], raw_data := some payload }
      else
        .ok { gbix := gbix, data_size := ds, format := ⟨pm, tm⟩,
              max_size := (w, h), num_frames := 1, num_mipmaps := 1,
              mipmaps := [(⟨0, 0, none⟩, payload.take (ceilMul8 (w * h) bpp8))],
              raw_data := none } := by
  cases gbix with
  | none =>
    have hx0 : mkPvrBytes none ds pm tm w h payload =
        [] ++ (pvrtMagic ++ (toLE 4 ds ++ ([pm] ++ ([tm] ++ (toLE 2 0 ++
          (toLE 2 w ++ (toLE 2 h ++ payload))))))) := rfl
    unfold Pvr.parse
    dsimp only
    rw [bsRead_at [] pvrtMagic _ hx0
      (show (0 : Nat) = ([] : Bytes).length from rfl)
      (show (pvrtMagic : Bytes).length = 4 from rfl)]
    dsimp only
    rw [if_neg (show ¬(pvrtMagic = gbixMagic) by decide)]
    exact Pvr.parseBody_forward none ([] ++ pvrtMagic) payload ds pm tm w h
      (by rw [hx0]; simp only [writeLE, List.append_assoc, List.nil_append])
      (show (0 + 4 : Nat) = (([] : Bytes) ++ pvrtMagic).length from rfl)
      hds hw hh hpm htm hbpp
  | some g =>
    have hx0 : mkPvrBytes (some g) ds pm tm w h payload =
        [] ++ (gbixMagic ++ (toLE 4 g.length ++ (g ++ (pvrtMagic ++
          (toLE 4 ds ++ ([pm] ++ ([tm] ++ (toLE 2 0 ++ (toLE 2 w ++
            (toLE 2 h ++ payload)))))))))) := by
      show (gbixMagic ++ (toLE 4 g.length ++ g)) ++ _ = _
      simp only [writeLE, List.append_assoc, List.nil_append]
    unfold Pvr.parse
    dsimp only
    rw [bsRead_at [] gbixMagic _ hx0
      (show (0 : Nat) = ([] : Bytes).length from rfl)
      (show (gbixMagic : Bytes).length = 4 from rfl)]
    dsimp only
    rw [if_pos rfl]
    rw [readU32_at ([] ++ gbixMagic)
      (g ++ (pvrtMagic ++ (toLE 4 ds ++ ([pm] ++ ([tm] ++ (toLE 2 0 ++
        (toLE 2 w ++ (toLE 2 h ++ payload)))))))) g.length
      (by rw [hx0]; simp only [writeLE, List.append_assoc, List.nil_append])
      (show (0 + 4 : Nat) = (([] : Bytes) ++ gbixMagic).length from rfl)
      (hgb g rfl)]
    simp only [pureIsOk, bindOk, bindOkB]
    rw [bsRead_at (([] ++ gbixMagic) ++ toLE 4 g.length) g
      (pvrtMagic ++ (toLE 4 ds ++ ([pm] ++ ([tm] ++ (toLE 2 0 ++
        (toLE 2 w ++ (toLE 2 h ++ payload)))))))
      (by rw [hx0]; simp only [writeLE, List.append_assoc, List.nil_append])
      (by simp [gbixMagic, List.length_append, toLE_length]; try omega) rfl]
    dsimp only
    rw [bsRead_at ((([] ++ gbixMagic) ++ toLE 4 g.length) ++ g) pvrtMagic
      (toLE 4 ds ++ ([pm] ++ ([tm] ++ (toLE 2 0 ++
        (toLE 2 w ++ (toLE 2 h ++ payload))))))
      (by rw [hx0]; simp only [writeLE, List.append_assoc, List.nil_append])
      (by simp [gbixMagic, List.length_append, toLE_length]; try omega)
      (show (pvrtMagic : Bytes).length = 4 from rfl)]
    dsimp only
    exact Pvr.parseBody_forward (some g)
      (((([] ++ gbixMagic) ++ toLE 4 g.length) ++ g) ++ pvrtMagic) payload
      ds pm tm w h
      (by rw [hx0]; simp only [writeLE, List.append_assoc, List.nil_append])
      (by simp [gbixMagic, pvrtMagic, List.length_append, toLE_length]; try omega)
      hds hw hh hpm htm hbpp

/-- Serialization of a structured single-mip `Pvr` state: `Pvr.as_bytes`
reproduces exactly the canonical PVR image with recomputed
`data_size = len(mip 0) + 8`. -/
theorem Pvr.as_bytes_structured (gbix : Option Bytes) (ds pm tm w h : Nat)
    (m0 : Bytes) (hpm : pm < 256) (htm : tm < 256) :
    Pvr.as_bytes
      ({ gbix := gbix, data_size := ds, format := ⟨pm, tm⟩,
         max_size := (w, h), num_frames := 1, num_mipmaps := 1,
         mipmaps := [(⟨0, 0, none⟩, m0)], raw_data := none }) =
      .ok (mkPvrBytes gbix (m0.length + 8) pm tm w h m0) := by
  unfold Pvr.as_bytes
  dsimp only
  have hmap : (List.range 1).map (fun mip => (⟨mip, 0, none⟩ : MipIndex)) =
      [⟨0, 0, none⟩] := rfl
  rw [hmap]
  have hjoin : lookupJoin [((⟨0, 0, none⟩ : MipIndex), m0)] [⟨0, 0, none⟩] =
      .ok (m0 ++ []) := by
    simp [lookupJoin, lookupKV]
  rw [hjoin]
  simp only [pureIsOk, bindOk, bindOkB, List.append_nil]
  have h1 : writeLE 1 pm = [pm] := by
    simp [writeLE, toLE, Nat.mod_eq_of_lt hpm]
  have h2 : writeLE 1 tm = [tm] := by
    simp [writeLE, toLE, Nat.mod_eq_of_lt htm]
  cases gbix with
  | none =>
    simp only [mkPvrBytes, h1, h2, List.map_cons, List.map_nil, List.sum_cons,
      List.sum_nil, List.nil_append]
    rw [show (m0.length + 0 + 8) = m0.length + 8 from by omega]
    simp [List.append_assoc]
  | some g =>
    simp only [mkPvrBytes, h1, h2, List.map_cons, List.map_nil, List.sum_cons,
      List.sum_nil, List.nil_append]
    rw [show (m0.length + 0 + 8) = m0.length + 8 from by omega]
    simp [List.append_assoc]

/-! ## DDS lemmas -/

theorem dxgi_from_magic_mem {m : Bytes} {f : Nat}
    (h : dxgi_from_magic m = some f) :
    f = 0x50 ∨ f = 0x53 ∨ f = 0x47 := by
  unfold dxgi_from_magic at h
  split at h
  · exact Or.inl (Option.some.inj h).symm
  split at h
  · exact Or.inr (Or.inl (Option.some.inj h).symm)
  split at h
  · exact Or.inr (Or.inr (Option.some.inj h).symm)
  · exact Option.noConfusion h

/-- Characterization of a successful `Dds.parseBody`: headers and the
essential fields are stored, `num_frames` is divided by 6 exactly on the
cubemap path, and the result is either the raw-data fallback (DXGI
format without a `bytes_per_pixel` entry) or a structured sequential
read over the cubemap or flat key order with no raw data. -/
theorem ddsParseBody_ok_inv {header : DdsHeader} {h2 : DX10Header}
    {s : ByteStream} {t : Dds}
    (H : Dds.parseBody header h2 s = .ok t) :
    t.header = some header ∧ t.header_2 = some h2 ∧ t.format = h2.format ∧
    t.max_size = (header.width, header.height) ∧
    t.num_mipmaps = header.num_mipmaps ∧
    ((ddsIsCubemapH2 h2 = true ∧ h2.array_size % 6 = 0 ∧
        t.num_frames = h2.array_size / 6) ∨
     (ddsIsCubemapH2 h2 = false ∧ t.num_frames = h2.array_size)) ∧
    ((Dds.bytes_per_pixel_x8 h2.format = none ∧
        (∃ r, t.raw_data = some r) ∧ t.mipmaps = []) ∨
     (∃ bpp8, Dds.bytes_per_pixel_x8 h2.format = some bpp8 ∧
        t.raw_data = none ∧
        ∃ s2, t.mipmaps = (readSeq s2
          (if ddsIsCubemapH2 h2 then
            ddsOrderCubemap t.num_frames (Dds.mip_sizes header.width
              header.height bpp8 h2.format header.num_mipmaps)
          else
            ddsOrderFlat t.num_frames (Dds.mip_sizes header.width
              header.height bpp8 h2.format header.num_mipmaps))).1)) := by
  unfold Dds.parseBody at H
  by_cases hcm : ddsIsCubemapH2 h2 = true
  · rw [if_pos hcm] at H
    by_cases hmod : h2.array_size % 6 = 0
    case neg => simp [pyAssert, hmod] at H
    have hb : pyAssert (decide (h2.array_size % 6 = 0)) = .ok () := by
      rw [decide_eq_true hmod]
      rfl
    rw [hb] at H
    simp only [pureIsOk, bindOk, bindOkB] at H
    cases hbpp : Dds.bytes_per_pixel_x8 h2.format with
    | none =>
      rw [hbpp] at H
      dsimp only at H
      rcases hra : bsReadAll s with ⟨rest, s7⟩
      rw [hra] at H
      simp only [pureIsOk, Except.ok.injEq] at H
      subst H
      exact ⟨rfl, rfl, rfl, rfl, rfl, Or.inl ⟨hcm, hmod, rfl⟩,
        Or.inl ⟨rfl, ⟨rest, rfl⟩, rfl⟩⟩
    | some bpp8 =>
      rw [hbpp] at H
      dsimp only at H
      rw [if_pos hcm] at H
      rcases hms : readSeq s (ddsOrderCubemap (h2.array_size / 6)
          (Dds.mip_sizes header.width header.height bpp8 h2.format
            header.num_mipmaps)) with ⟨ms, s7⟩
      rw [hms] at H
      simp only [pureIsOk, Except.ok.injEq] at H
      subst H
      refine ⟨rfl, rfl, rfl, rfl, rfl, Or.inl ⟨hcm, hmod, rfl⟩,
        Or.inr ⟨bpp8, rfl, rfl, ⟨s, ?_⟩⟩⟩
      rw [if_pos hcm]
      show ms = (readSeq s (ddsOrderCubemap (h2.array_size / 6)
        (Dds.mip_sizes header.width header.height bpp8 h2.format
          header.num_mipmaps))).1
      rw [hms]
  · have hcm2 : ddsIsCubemapH2 h2 = false := by
      cases hc : ddsIsCubemapH2 h2
      · rfl
      · exact absurd hc hcm
    rw [if_neg hcm] at H
    simp only [pureIsOk, bindOk, bindOkB] at H
    cases hbpp : Dds.bytes_per_pixel_x8 h2.format with
    | none =>
      rw [hbpp] at H
      dsimp only at H
      rcases hra : bsReadAll s with ⟨rest, s7⟩
      rw [hra] at H
      simp only [pureIsOk, Except.ok.injEq] at H
      subst H
      exact ⟨rfl, rfl, rfl, rfl, rfl, Or.inr ⟨hcm2, rfl⟩,
        Or.inl ⟨rfl, ⟨rest, rfl⟩, rfl⟩⟩
    | some bpp8 =>
      rw [hbpp] at H
      dsimp only at H
      rw [if_neg hcm] at H
      rcases hms : readSeq s (ddsOrderFlat h2.array_size
          (Dds.mip_sizes header.width header.height bpp8 h2.format
            header.num_mipmaps)) with ⟨ms, s7⟩
      rw [hms] at H
      simp only [pureIsOk, Except.ok.injEq] at H
      subst H
      refine ⟨rfl, rfl, rfl, rfl, rfl, Or.inr ⟨hcm2, rfl⟩,
        Or.inr ⟨bpp8, rfl, rfl, ⟨s, ?_⟩⟩⟩
      rw [if_neg hcm]
      show ms = (readSeq s (ddsOrderFlat h2.array_size
        (Dds.mip_sizes header.width header.height bpp8 h2.format
          header.num_mipmaps))).1
      rw [hms]

/-- A successful `Dds.parse` passes through `Dds.parseBody` with either
the DX10 extended header (whose stored `magic` is the re-read
`b"DX10"`) or the dummy header built from a legacy FourCC. -/
theorem ddsParse_ok_body {x : Bytes} {t : Dds} (H : Dds.parse x = .ok t) :
    ∃ header h2 s2, Dds.parseBody header h2 s2 = .ok t ∧
      (h2.magic = some dx10Magic ∨
       (h2.magic = none ∧ h2.dimension = 3 ∧ h2.array_size = 1 ∧
        (h2.format = 0x50 ∨ h2.format = 0x53 ∨ h2.format = 0x47))) := by
  unfold Dds.parse at H
  dsimp only at H
  cases hh : DdsHeader.from_stream ⟨x, 0⟩ with
  | error e => rw [hh] at H; simp at H
  | ok p0 =>
  obtain ⟨header, s1⟩ := p0
  rw [hh] at H
  simp only [pureIsOk, bindOk, bindOkB] at H
  by_cases h1 : header.magic = ddsMagic
  case neg => rw [decide_eq_false h1, pyAssert_false] at H; simp at H
  have hb1 : pyAssert (decide (header.magic = ddsMagic)) = .ok () := by
    rw [decide_eq_true h1]
    rfl
  rw [hb1] at H
  simp only [pureIsOk, bindOk, bindOkB] at H
  by_cases h2sz : header.header_size = 0x7C
  case neg => rw [decide_eq_false h2sz, pyAssert_false] at H; simp at H
  have hb2 : pyAssert (decide (header.header_size = 0x7C)) = .ok () := by
    rw [decide_eq_true h2sz]
    rfl
  rw [hb2] at H
  simp only [pureIsOk, bindOk, bindOkB] at H
  by_cases h3 : header.reserved = List.replicate 44 0
  case neg => rw [decide_eq_false h3, pyAssert_false] at H; simp at H
  have hb3 : pyAssert (decide (header.reserved = List.replicate 44 0)) = .ok () := by
    rw [decide_eq_true h3]
    rfl
  rw [hb3] at H
  simp only [pureIsOk, bindOk, bindOkB] at H
  by_cases h4 : header.pf0 = 0x20 ∧ header.pf1 = 0x04
  case neg => rw [decide_eq_false h4, pyAssert_false] at H; simp at H
  have hb4 : pyAssert (decide (header.pf0 = 0x20 ∧ header.pf1 = 0x04)) = .ok () := by
    rw [decide_eq_true h4]
    rfl
  rw [hb4] at H
  simp only [pureIsOk, bindOk, bindOkB] at H
  rw [show bsRead s1 4 =
    ((s1.data.drop s1.pos).take 4,
     ⟨s1.data, s1.pos + ((s1.data.drop s1.pos).take 4).length⟩) from rfl] at H
  dsimp only at H
  by_cases hdx : (s1.data.drop s1.pos).take 4 = dx10Magic
  · rw [if_pos hdx] at H
    rw [hdx] at H
    have hp4 : s1.pos + (dx10Magic : Bytes).length - 4 = s1.pos := rfl
    rw [hp4] at H
    unfold DX10Header.from_stream at H
    rw [readExact_of_bsRead
      (show bsRead ⟨s1.data, s1.pos⟩ 4 = (dx10Magic, ⟨s1.data, s1.pos + 4⟩) by
          rw [show bsRead ⟨s1.data, s1.pos⟩ 4 =
            ((s1.data.drop s1.pos).take 4,
             ⟨s1.data, s1.pos + ((s1.data.drop s1.pos).take 4).length⟩) from rfl]
          rw [hdx]
          rfl)
      rfl] at H
    simp only [pureIsOk, bindOk, bindOkB] at H
    cases hr1 : readExact ⟨s1.data, s1.pos + 4⟩ 20 with
    | error e => rw [hr1] at H; simp at H
    | ok p1 =>
    obtain ⟨r1, s2⟩ := p1
    rw [hr1] at H
    simp only [pureIsOk, bindOk, bindOkB] at H
    cases hr2 : readU32 s2 with
    | error e => rw [hr2] at H; simp at H
    | ok p2 =>
    obtain ⟨unk, s3⟩ := p2
    rw [hr2] at H
    simp only [pureIsOk, bindOk, bindOkB] at H
    cases hr3 : readExact s3 16 with
    | error e => rw [hr3] at H; simp at H
    | ok p3 =>
    obtain ⟨r2, s4⟩ := p3
    rw [hr3] at H
    simp only [pureIsOk, bindOk, bindOkB] at H
    cases hr4 : readU32 s4 with
    | error e => rw [hr4] at H; simp at H
    | ok p4 =>
    obtain ⟨fmtv, s5⟩ := p4
    rw [hr4] at H
    simp only [pureIsOk, bindOk, bindOkB] at H
    by_cases hdxgi : DXGI.isValid fmtv = true
    case neg => simp [hdxgi] at H
    rw [if_pos hdxgi] at H
    cases hr5 : readU32 s5 with
    | error e => rw [hr5] at H; simp at H
    | ok p5 =>
    obtain ⟨dimv, s6⟩ := p5
    rw [hr5] at H
    simp only [pureIsOk, bindOk, bindOkB] at H
    by_cases hdim : Dimension.isValid dimv = true
    case neg => simp [hdim] at H
    rw [if_pos hdim] at H
    cases hr6 : readU32 s6 with
    | error e => rw [hr6] at H; simp at H
    | ok p6 =>
    obtain ⟨mf, s7⟩ := p6
    rw [hr6] at H
    simp only [pureIsOk, bindOk, bindOkB] at H
    cases hr7 : readU32 s7 with
    | error e => rw [hr7] at H; simp at H
    | ok p7 =>
    obtain ⟨asz, s8⟩ := p7
    rw [hr7] at H
    simp only [pureIsOk, bindOk, bindOkB] at H
    cases hr8 : readU32 s8 with
    | error e => rw [hr8] at H; simp at H
    | ok p8 =>
    obtain ⟨af, s9⟩ := p8
    rw [hr8] at H
    simp only [pureIsOk, bindOk, bindOkB] at H
    by_cases hz1 : r1 = List.replicate 20 0
    case neg => rw [decide_eq_false hz1, pyAssert_false] at H; simp at H
    have hbz1 : pyAssert (decide (r1 = List.replicate 20 0)) = .ok () := by
      rw [decide_eq_true hz1]
      rfl
    rw [hbz1] at H
    simp only [pureIsOk, bindOk, bindOkB] at H
    by_cases hz2 : r2 = List.replicate 16 0
    case neg => rw [decide_eq_false hz2, pyAssert_false] at H; simp at H
    have hbz2 : pyAssert (decide (r2 = List.replicate 16 0)) = .ok () := by
      rw [decide_eq_true hz2]
      rfl
    rw [hbz2] at H
    simp only [pureIsOk, bindOk, bindOkB] at H
    exact ⟨header, _, s9, H, Or.inl rfl⟩
  · rw [if_neg hdx] at H
    cases hfm : dxgi_from_magic ((s1.data.drop s1.pos).take 4) with
    | none => rw [hfm] at H; simp at H
    | some f =>
    rw [hfm] at H
    simp only [pureIsOk, bindOk, bindOkB] at H
    exact ⟨header, _, _, H, Or.inr ⟨rfl, rfl, rfl, dxgi_from_magic_mem hfm⟩⟩

/-! ## VTF lemmas -/

theorem Vtf.parseMips_ok_inv {t0 : Vtf} {header : VtfHeader}
    {s : ByteStream} {t : Vtf}
    (H : Vtf.parseMips t0 header s = .ok t) :
    (Vtf.bytes_per_pixel_x2 header.format = none ∧
      ∃ r, t = { t0 with raw_data := some r }) ∨
    ((Vtf.bytes_per_pixel_x2 header.format).isSome = true ∧
      ∃ s2, t = { t0 with mipmaps := t0.mipmaps ++
        (readSeq s2 (if header.flags.testBit 14 then
            vtfOrderCubemap header.num_frames
              (Vtf.mip_sizes header.width header.height header.format
                t0.num_mipmaps)
          else
            vtfOrderFlat header.num_frames
              (Vtf.mip_sizes header.width header.height header.format
                t0.num_mipmaps))).1 }) := by
  unfold Vtf.parseMips at H
  dsimp only at H
  cases hbpp : Vtf.bytes_per_pixel_x2 header.format with
  | none =>
    rw [hbpp] at H
    dsimp only at H
    rcases hra : bsReadAll (match lookupKV t0.resources ResTag.imageData with
      | some r => (⟨s.data, r.offset⟩ : ByteStream)
      | none => s) with ⟨rest, s7⟩
    rw [hra] at H
    simp only [pureIsOk, Except.ok.injEq] at H
    exact Or.inl ⟨rfl, rest, H.symm⟩
  | some bpp2 =>
    rw [hbpp] at H
    dsimp only at H
    by_cases hcb : header.flags.testBit 14 = true
    · rw [if_pos hcb] at H
      rw [if_pos hcb]
      rcases hms : readSeq (match lookupKV t0.resources ResTag.imageData with
        | some r => (⟨s.data, r.offset⟩ : ByteStream)
        | none => s) (vtfOrderCubemap header.num_frames
          (Vtf.mip_sizes header.width header.height header.format
            t0.num_mipmaps)) with ⟨ms, s7⟩
      rw [hms] at H
      simp only [pureIsOk, Except.ok.injEq] at H
      refine Or.inr ⟨rfl,
        ⟨(match lookupKV t0.resources ResTag.imageData with
          | some r => (⟨s.data, r.offset⟩ : ByteStream)
          | none => s), ?_⟩⟩
      rw [hms]
      exact H.symm
    · rw [if_neg hcb] at H
      rw [if_neg hcb]
      rcases hms : readSeq (match lookupKV t0.resources ResTag.imageData with
        | some r => (⟨s.data, r.offset⟩ : ByteStream)
        | none => s) (vtfOrderFlat header.num_frames
          (Vtf.mip_sizes header.width header.height header.format
            t0.num_mipmaps)) with ⟨ms, s7⟩
      rw [hms] at H
      simp only [pureIsOk, Except.ok.injEq] at H
      refine Or.inr ⟨rfl,
        ⟨(match lookupKV t0.resources ResTag.imageData with
          | some r => (⟨s.data, r.offset⟩ : ByteStream)
          | none => s), ?_⟩⟩
      rw [hms]
      exact H.symm

theorem Vtf.parseThumb_ok_inv {t0 : Vtf} {header : VtfHeader}
    {s : ByteStream} {t : Vtf}
    (H : Vtf.parseThumb t0 header s = .ok t) :
    (t0.thumbnail_format = -1 ∧ t0.thumbnail_size = (0, 0) ∧
      ∃ s2, Vtf.parseMips t0 header s2 = .ok t) ∨
    (¬ t0.thumbnail_format = -1 ∧
      (Vtf.bytes_per_pixel_x2 t0.thumbnail_format).isSome = true ∧
      ∃ tb s2, Vtf.parseMips
        { t0 with mipmaps := t0.mipmaps ++ [(VtfKey.thumb, tb)] }
        header s2 = .ok t) ∨
    (¬ t0.thumbnail_format = -1 ∧
      Vtf.bytes_per_pixel_x2 t0.thumbnail_format = none ∧
      ∃ r, t = { t0 with raw_data := some r }) := by
  unfold Vtf.parseThumb at H
  dsimp only at H
  by_cases htf : t0.thumbnail_format = -1
  · rw [if_pos htf] at H
    by_cases hts : t0.thumbnail_size = (0, 0)
    case neg => rw [decide_eq_false hts, pyAssert_false] at H; simp at H
    have hb : pyAssert (decide (t0.thumbnail_size = (0, 0))) = .ok () := by
      rw [decide_eq_true hts]
      rfl
    rw [hb] at H
    simp only [pureIsOk, bindOk, bindOkB] at H
    exact Or.inl ⟨htf, hts, ⟨_, H⟩⟩
  · rw [if_neg htf] at H
    cases hbpp : Vtf.bytes_per_pixel_x2 t0.thumbnail_format with
    | some bpp2 =>
      rw [hbpp] at H
      dsimp only at H
      by_cases hts : t0.thumbnail_size = (0, 0)
      case pos =>
        rw [decide_eq_false (not_not_intro hts), pyAssert_false] at H
        simp at H
      have hb : pyAssert (decide (¬ t0.thumbnail_size = (0, 0))) = .ok () := by
        rw [decide_eq_true hts]
        rfl
      rw [hb] at H
      simp only [pureIsOk, bindOk, bindOkB] at H
      rcases hrd : bsRead (match lookupKV t0.resources ResTag.thumbData with
        | some r => (⟨s.data, r.offset⟩ : ByteStream)
        | none => s)
        ((Vtf.mip_data_size t0.thumbnail_size.1 t0.thumbnail_size.2 0
          t0.thumbnail_format).getD 0) with ⟨tb, s2⟩
      rw [hrd] at H
      dsimp only at H
      exact Or.inr (Or.inl ⟨htf, rfl, tb, s2, H⟩)
    | none =>
      rw [hbpp] at H
      dsimp only at H
      rcases hra : bsReadAll (match lookupKV t0.resources ResTag.thumbData with
        | some r => (⟨s.data, r.offset⟩ : ByteStream)
        | none => s) with ⟨rest, s7⟩
      rw [hra] at H
      simp only [pureIsOk, Except.ok.injEq] at H
      exact Or.inr (Or.inr ⟨htf, rfl, rest, H.symm⟩)

theorem Vtf.parseCma_ok_inv {t0 : Vtf} {header : VtfHeader}
    {s : ByteStream} {t : Vtf}
    (H : Vtf.parseCma t0 header s = .ok t) :
    header.first_frame = 0 ∧
    ∃ c s2, Vtf.parseThumb { t0 with cma := c } header s2 = .ok t := by
  unfold Vtf.parseCma at H
  cases hc : lookupKV t0.resources ResTag.cmaTag with
  | none =>
    rw [hc] at H
    dsimp only at H
    simp only [pureIsOk, bindOk, bindOkB] at H
    by_cases hff : header.first_frame = 0
    case neg => rw [decide_eq_false hff, pyAssert_false] at H; simp at H
    have hb : pyAssert (decide (header.first_frame = 0)) = .ok () := by
      rw [decide_eq_true hff]
      rfl
    rw [hb] at H
    simp only [pureIsOk, bindOk, bindOkB] at H
    exact ⟨hff, none, s, H⟩
  | some r =>
    rw [hc] at H
    dsimp only at H
    by_cases hfl : r.flags = 2
    · rw [if_pos hfl] at H
      simp only [pureIsOk, bindOk, bindOkB] at H
      by_cases hff : header.first_frame = 0
      case neg => rw [decide_eq_false hff, pyAssert_false] at H; simp at H
      have hb : pyAssert (decide (header.first_frame = 0)) = .ok () := by
        rw [decide_eq_true hff]
        rfl
      rw [hb] at H
      simp only [pureIsOk, bindOk, bindOkB] at H
      exact ⟨hff, some (writeLE 4 r.offset), s, H⟩
    · rw [if_neg hfl] at H
      cases hre : readExact ⟨s.data, r.offset⟩ (4 + 4 * header.num_frames) with
      | error e => rw [hre] at H; simp at H
      | ok p =>
      obtain ⟨blob, s3⟩ := p
      rw [hre] at H
      simp only [pureIsOk, bindOk, bindOkB] at H
      by_cases hsz : fromLE (blob.take 4) = header.num_frames * 4
      case neg => rw [decide_eq_false hsz, pyAssert_false] at H; simp at H
      have hb : pyAssert
          (decide (fromLE (blob.take 4) = header.num_frames * 4)) = .ok () := by
        rw [decide_eq_true hsz]
        rfl
      rw [hb] at H
      simp only [pureIsOk, bindOk, bindOkB] at H
      by_cases hff : header.first_frame = 0
      case neg => rw [decide_eq_false hff, pyAssert_false] at H; simp at H
      have hb2 : pyAssert (decide (header.first_frame = 0)) = .ok () := by
        rw [decide_eq_true hff]
        rfl
      rw [hb2] at H
      simp only [pureIsOk, bindOk, bindOkB] at H
      exact ⟨hff, some (blob.drop 4), s, H⟩

theorem Vtf.parseRes_ok_inv {header : VtfHeader} {minor nm : Nat} {tf : Int}
    {ts : Nat × Nat} {depth : Option Nat} {s : ByteStream} {t : Vtf}
    (H : Vtf.parseRes header minor nm tf ts depth s = .ok t) :
    ∃ rs s2, Vtf.parseCma
      ⟨some header, rs, none, (header.width, header.height),
       header.num_frames, nm, tf, ts, depth, [], none⟩ header s2 = .ok t := by
  unfold Vtf.parseRes at H
  by_cases h3 : 3 ≤ minor
  · rw [if_pos h3] at H
    rcases hz3 : bsRead s 3 with ⟨z3, s2⟩
    rw [hz3] at H
    dsimp only at H
    by_cases hz : z3 = List.replicate 3 0
    case neg => rw [decide_eq_false hz, pyAssert_false] at H; simp at H
    have hb : pyAssert (decide (z3 = List.replicate 3 0)) = .ok () := by
      rw [decide_eq_true hz]
      rfl
    rw [hb] at H
    simp only [pureIsOk, bindOk, bindOkB] at H
    cases hnr : readU32 s2 with
    | error e => rw [hnr] at H; simp at H
    | ok p =>
    obtain ⟨nres, s3⟩ := p
    rw [hnr] at H
    simp only [pureIsOk, bindOk, bindOkB] at H
    rcases hz8 : bsRead s3 8 with ⟨z8, s4⟩
    rw [hz8] at H
    dsimp only at H
    by_cases hz2 : z8 = List.replicate 8 0
    case neg => rw [decide_eq_false hz2, pyAssert_false] at H; simp at H
    have hb2 : pyAssert (decide (z8 = List.replicate 8 0)) = .ok () := by
      rw [decide_eq_true hz2]
      rfl
    rw [hb2] at H
    simp only [pureIsOk, bindOk, bindOkB] at H
    cases hrr : readResources nres s4 with
    | error e => rw [hrr] at H; simp at H
    | ok p =>
    obtain ⟨rs, s5⟩ := p
    rw [hrr] at H
    simp only [pureIsOk, bindOk, bindOkB] at H
    by_cases htl : s5.pos = header.header_size
    case neg => rw [decide_eq_false htl, pyAssert_false] at H; simp at H
    have hb3 : pyAssert (decide (s5.pos = header.header_size)) = .ok () := by
      rw [decide_eq_true htl]
      rfl
    rw [hb3] at H
    simp only [pureIsOk, bindOk, bindOkB] at H
    exact ⟨resourcesDict rs, s5, H⟩
  · rw [if_neg h3] at H
    simp only [pureIsOk, bindOk, bindOkB] at H
    by_cases htl : s.pos = header.header_size
    case neg => rw [decide_eq_false htl, pyAssert_false] at H; simp at H
    have hb3 : pyAssert (decide (s.pos = header.header_size)) = .ok () := by
      rw [decide_eq_true htl]
      rfl
    rw [hb3] at H
    simp only [pureIsOk, bindOk, bindOkB] at H
    exact ⟨[], s, H⟩

theorem Vtf.parseDepth_ok_inv {header : VtfHeader} {minor nm : Nat} {tf : Int}
    {ts : Nat × Nat} {s : ByteStream} {t : Vtf}
    (H : Vtf.parseDepth header minor nm tf ts s = .ok t) :
    ∃ d s2, Vtf.parseRes header minor nm tf ts d s2 = .ok t := by
  unfold Vtf.parseDepth at H
  by_cases h2 : 2 ≤ minor
  · rw [if_pos h2] at H
    cases hd : readU16 s with
    | error e => rw [hd] at H; simp at H
    | ok p =>
    obtain ⟨d, s2⟩ := p
    rw [hd] at H
    simp only [pureIsOk, bindOk, bindOkB] at H
    exact ⟨some d, s2, H⟩
  · rw [if_neg h2] at H
    simp only [pureIsOk, bindOk, bindOkB] at H
    exact ⟨none, s, H⟩

theorem Vtf.parseAlign_ok_inv {header : VtfHeader} {minor : Nat}
    {s : ByteStream} {t : Vtf}
    (H : Vtf.parseAlign header minor s = .ok t) :
    ∃ nm tf ts s2, VtfFormat.isValid tf = true ∧
      Vtf.parseDepth header minor nm tf ts s2 = .ok t := by
  unfold Vtf.parseAlign at H
  cases h1 : readU8 s with
  | error e => rw [h1] at H; simp at H
  | ok p1 =>
  obtain ⟨nm, sa⟩ := p1
  rw [h1] at H
  simp only [pureIsOk, bindOk, bindOkB] at H
  cases h2 : readI32 sa with
  | error e => rw [h2] at H; simp at H
  | ok p2 =>
  obtain ⟨tfv, sb⟩ := p2
  rw [h2] at H
  simp only [pureIsOk, bindOk, bindOkB] at H
  by_cases h3 : VtfFormat.isValid tfv = true
  case neg =>
    rw [if_neg (by simpa using h3)] at H
    simp at H
  rw [if_pos (by simpa using h3)] at H
  cases h4 : readU8 sb with
  | error e => rw [h4] at H; simp at H
  | ok p4 =>
  obtain ⟨ts1, sc⟩ := p4
  rw [h4] at H
  simp only [pureIsOk, bindOk, bindOkB] at H
  cases h5 : readU8 sc with
  | error e => rw [h5] at H; simp at H
  | ok p5 =>
  obtain ⟨ts2, sd⟩ := p5
  rw [h5] at H
  simp only [pureIsOk, bindOk, bindOkB] at H
  by_cases h6 : minor = 1
  · rw [if_pos h6] at H
    rcases hp : bsRead sd 1 with ⟨b1, se⟩
    rw [hp] at H
    dsimp only at H
    by_cases h7 : b1 = [0]
    case neg => rw [decide_eq_false h7, pyAssert_false] at H; simp at H
    have hb : pyAssert (decide (b1 = [0])) = .ok () := by
      rw [decide_eq_true h7]
      rfl
    rw [hb] at H
    simp only [pureIsOk, bindOk, bindOkB] at H
    exact ⟨nm, tfv, (ts1, ts2), se, h3, H⟩
  · rw [if_neg h6] at H
    exact ⟨nm, tfv, (ts1, ts2), sd, h3, H⟩

theorem Vtf.parse_ok_align {x : Bytes} {t : Vtf} (H : Vtf.parse x = .ok t) :
    ∃ header minor s2,
      (∃ fv : Nat, header.format = (fv : Int) ∧ (fv ≤ 26 ∨ fv = 66)) ∧
      Vtf.parseAlign header minor s2 = .ok t := by
  unfold Vtf.parse at H
  dsimp only at H
  rcases hm : bsRead ⟨x, 0⟩ 4 with ⟨m4, s0⟩
  rw [hm] at H
  dsimp only at H
  by_cases h1 : m4 = vtfMagic
  case neg => rw [decide_eq_false h1, pyAssert_false] at H; simp at H
  have hb1 : pyAssert (decide (m4 = vtfMagic)) = .ok () := by
    rw [decide_eq_true h1]
    rfl
  rw [hb1] at H
  simp only [pureIsOk, bindOk, bindOkB] at H
  cases h2 : readU32 s0 with
  | error e => rw [h2] at H; simp at H
  | ok p2 =>
  obtain ⟨major, s1⟩ := p2
  rw [h2] at H
  simp only [pureIsOk, bindOk, bindOkB] at H
  cases h3 : readU32 s1 with
  | error e => rw [h3] at H; simp at H
  | ok p3 =>
  obtain ⟨minor, s2⟩ := p3
  rw [h3] at H
  simp only [pureIsOk, bindOk, bindOkB] at H
  by_cases h4 : major = 7 ∧ minor ≤ 5
  case neg => rw [if_neg h4] at H; simp at H
  rw [if_pos h4] at H
  unfold VtfHeader.from_stream at H
  cases r1 : readExact ⟨s2.data, s2.pos - 12⟩ 4 with
  | error e => rw [r1] at H; simp at H
  | ok q1 =>
  obtain ⟨magic, u1⟩ := q1
  rw [r1] at H
  simp only [pureIsOk, bindOk, bindOkB] at H
  cases r2 : readU32 u1 with
  | error e => rw [r2] at H; simp at H
  | ok q2 =>
  obtain ⟨hmaj, u2⟩ := q2
  rw [r2] at H
  simp only [pureIsOk, bindOk, bindOkB] at H
  cases r3 : readU32 u2 with
  | error e => rw [r3] at H; simp at H
  | ok q3 =>
  obtain ⟨hmin, u3⟩ := q3
  rw [r3] at H
  simp only [pureIsOk, bindOk, bindOkB] at H
  cases r4 : readU32 u3 with
  | error e => rw [r4] at H; simp at H
  | ok q4 =>
  obtain ⟨hsz, u4⟩ := q4
  rw [r4] at H
  simp only [pureIsOk, bindOk, bindOkB] at H
  cases r5 : readU16 u4 with
  | error e => rw [r5] at H; simp at H
  | ok q5 =>
  obtain ⟨w, u5⟩ := q5
  rw [r5] at H
  simp only [pureIsOk, bindOk, bindOkB] at H
  cases r6 : readU16 u5 with
  | error e => rw [r6] at H; simp at H
  | ok q6 =>
  obtain ⟨hgt, u6⟩ := q6
  rw [r6] at H
  simp only [pureIsOk, bindOk, bindOkB] at H
  cases r7 : readU32 u6 with
  | error e => rw [r7] at H; simp at H
  | ok q7 =>
  obtain ⟨flags, u7⟩ := q7
  rw [r7] at H
  simp only [pureIsOk, bindOk, bindOkB] at H
  cases r8 : readU16 u7 with
  | error e => rw [r8] at H; simp at H
  | ok q8 =>
  obtain ⟨nf, u8⟩ := q8
  rw [r8] at H
  simp only [pureIsOk, bindOk, bindOkB] at H
  cases r9 : readU16 u8 with
  | error e => rw [r9] at H; simp at H
  | ok q9 =>
  obtain ⟨ff, u9⟩ := q9
  rw [r9] at H
  simp only [pureIsOk, bindOk, bindOkB] at H
  cases r10 : readExact u9 4 with
  | error e => rw [r10] at H; simp at H
  | ok q10 =>
  obtain ⟨p1b, u10⟩ := q10
  rw [r10] at H
  simp only [pureIsOk, bindOk, bindOkB] at H
  cases r11 : readExact u10 12 with
  | error e => rw [r11] at H; simp at H
  | ok q11 =>
  obtain ⟨refl2, u11⟩ := q11
  rw [r11] at H
  simp only [pureIsOk, bindOk, bindOkB] at H
  cases r12 : readExact u11 4 with
  | error e => rw [r12] at H; simp at H
  | ok q12 =>
  obtain ⟨p2b, u12⟩ := q12
  rw [r12] at H
  simp only [pureIsOk, bindOk, bindOkB] at H
  cases r13 : readExact u12 4 with
  | error e => rw [r13] at H; simp at H
  | ok q13 =>
  obtain ⟨bump, u13⟩ := q13
  rw [r13] at H
  simp only [pureIsOk, bindOk, bindOkB] at H
  cases r14 : readU32 u13 with
  | error e => rw [r14] at H; simp at H
  | ok q14 =>
  obtain ⟨fmtv, u14⟩ := q14
  rw [r14] at H
  simp only [pureIsOk, bindOk, bindOkB] at H
  by_cases h5 : fmtv ≤ 26 ∨ fmtv = 66
  case neg => rw [if_neg h5] at H; simp at H
  rw [if_pos h5] at H
  simp only [pureIsOk, bindOk, bindOkB] at H
  try dsimp only at H
  by_cases h6 : p1b = List.replicate 4 0
  case neg => rw [decide_eq_false h6, pyAssert_false] at H; simp at H
  have hb6 : pyAssert (decide (p1b = List.replicate 4 0)) = .ok () := by
    rw [decide_eq_true h6]
    rfl
  rw [hb6] at H
  simp only [pureIsOk, bindOk, bindOkB] at H
  by_cases h7 : p2b = List.replicate 4 0
  case neg => rw [decide_eq_false h7, pyAssert_false] at H; simp at H
  have hb7 : pyAssert (decide (p2b = List.replicate 4 0)) = .ok () := by
    rw [decide_eq_true h7]
    rfl
  rw [hb7] at H
  simp only [pureIsOk, bindOk, bindOkB] at H
  exact ⟨_, minor, u14, ⟨fmtv, rfl, h5⟩, H⟩

theorem vtf_bpp_isSome_of_nat {fv : Nat} (h : fv ≤ 26 ∨ fv = 66) :
    (Vtf.bytes_per_pixel_x2 (fv : Int)).isSome = true := by
  rcases h with h | h
  · interval_cases fv <;> decide
  · subst h
    decide

theorem vtf_bpp_isSome_of_thumb {tf : Int} (hv : VtfFormat.isValid tf = true)
    (hne : ¬ tf = -1) : (Vtf.bytes_per_pixel_x2 tf).isSome = true := by
  unfold VtfFormat.isValid at hv
  simp only [Bool.or_eq_true, beq_iff_eq, Bool.and_eq_true,
    decide_eq_true_eq] at hv
  rcases hv with (h | ⟨h0, h1⟩) | h
  · exact absurd h hne
  · obtain ⟨fv, rfl⟩ := Int.eq_ofNat_of_zero_le h0
    exact vtf_bpp_isSome_of_nat (Or.inl (by exact_mod_cast h1))
  · rw [h]
    decide

/-- Characterization of a successful `Vtf.parse`: the header is stored
with the essentials exposed, `raw_data` is never populated (both
unknown-bpp fallbacks are unreachable once the two `Format(...)`
conversions have validated their values), and `mipmaps` is an optional
`"thumbnail"` entry followed by the sequential read over the
mip-DESCENDING key order (cubemap or flat). -/
theorem Vtf.parse_ok_inv {x : Bytes} {t : Vtf} (H : Vtf.parse x = .ok t) :
    ∃ header, t.header = some header ∧
      t.max_size = (header.width, header.height) ∧
      t.num_frames = header.num_frames ∧
      t.raw_data = none ∧
      (Vtf.bytes_per_pixel_x2 header.format).isSome = true ∧
      ∃ thumbPart s2,
        ((thumbPart = ([] : List (VtfKey × Bytes)) ∧
            t.thumbnail_format = -1) ∨
         (∃ tb, thumbPart = [(VtfKey.thumb, tb)] ∧
            ¬ t.thumbnail_format = -1)) ∧
        t.mipmaps = thumbPart ++ (readSeq s2
          (if Vtf.is_cubemap t then
            vtfOrderCubemap header.num_frames
              (Vtf.mip_sizes header.width header.height header.format
                t.num_mipmaps)
          else
            vtfOrderFlat header.num_frames
              (Vtf.mip_sizes header.width header.height header.format
                t.num_mipmaps))).1 := by
  obtain ⟨header, minor, s2, ⟨fv, hfmt, hfv⟩, HA⟩ := Vtf.parse_ok_align H
  obtain ⟨nm, tf, ts, s3, htfv, HD⟩ := Vtf.parseAlign_ok_inv HA
  obtain ⟨d, s4, HR⟩ := Vtf.parseDepth_ok_inv HD
  obtain ⟨rs, s5, HC⟩ := Vtf.parseRes_ok_inv HR
  obtain ⟨hff, c, s6, HT⟩ := Vtf.parseCma_ok_inv HC
  have hbpp : (Vtf.bytes_per_pixel_x2 header.format).isSome = true := by
    rw [hfmt]
    exact vtf_bpp_isSome_of_nat hfv
  rcases Vtf.parseThumb_ok_inv HT with
    ⟨htf, hts, s7, HM⟩ | ⟨htf, hbt, tb, s7, HM⟩ | ⟨htf, hbn, r, hteq⟩
  · rcases Vtf.parseMips_ok_inv HM with ⟨hbn2, r, hteq⟩ | ⟨hbs, s8, hteq⟩
    · rw [hbn2] at hbpp
      simp at hbpp
    · subst hteq
      exact ⟨header, rfl, rfl, rfl, rfl, hbpp, [], s8,
        Or.inl ⟨rfl, htf⟩, rfl⟩
  · rcases Vtf.parseMips_ok_inv HM with ⟨hbn2, r, hteq⟩ | ⟨hbs, s8, hteq⟩
    · rw [hbn2] at hbpp
      simp at hbpp
    · subst hteq
      exact ⟨header, rfl, rfl, rfl, rfl, hbpp, [(VtfKey.thumb, tb)], s8,
        Or.inr ⟨tb, rfl, htf⟩, rfl⟩
  · have htf2 : ¬ (tf = -1) := htf
    have hbn2 : Vtf.bytes_per_pixel_x2 tf = none := hbn
    have := vtf_bpp_isSome_of_thumb htfv htf2
    rw [hbn2] at this
    simp at this

/-! ## Key-order lemmas -/

theorem face_mem_all (f : Face) : f ∈ Face.all := by
  cases f <;> simp [Face.all]

theorem flatMap_map_singleton {α β : Type} (l : List α) (f : α → β) :
    (l.flatMap fun a => [f a]) = l.map f := by
  induction l with
  | nil => rfl
  | cons a l ih => simp [ih]

theorem ddsMipSizes_length (w h bpp8 fmt n : Nat) :
    (Dds.mip_sizes w h bpp8 fmt n).length = n := by
  simp [Dds.mip_sizes]

theorem vtfMipSizes_length (w h : Nat) (fmt : Int) (n : Nat) :
    (Vtf.mip_sizes w h fmt n).length = n := by
  simp [Vtf.mip_sizes]

theorem pvrMipSizes_length (w h bpp8 n : Nat) :
    (Pvr.mip_sizes w h bpp8 n).length = n := by
  simp [Pvr.mip_sizes]

theorem enum_pair_keys {β : Type} (sizes : List Nat) (g : Nat → β) :
    (sizes.enum.map fun p => (g p.1, p.2)).map Prod.fst =
      (List.range sizes.length).map g := by
  rw [List.map_map]
  rw [show (Prod.fst ∘ fun p : Nat × Nat => (g p.1, p.2)) =
    (g ∘ Prod.fst) from rfl]
  rw [← List.map_map, List.enum_map_fst]

theorem ddsOrderCubemap_keys (nf : Nat) (sizes : List Nat) (k : MipIndex) :
    k ∈ (ddsOrderCubemap nf sizes).map Prod.fst ↔
      (k.mip < sizes.length ∧ k.frame < nf ∧ k.face.isSome = true) := by
  unfold ddsOrderCubemap
  have hinner : ∀ (frame : Nat) (face : Face),
      ((sizes.enum.map fun p =>
        ((⟨p.1, frame, some face⟩ : MipIndex), p.2)).map Prod.fst) =
      (List.range sizes.length).map fun mip =>
        (⟨mip, frame, some face⟩ : MipIndex) := by
    intro frame face
    exact enum_pair_keys sizes (fun mip => (⟨mip, frame, some face⟩ : MipIndex))
  simp only [List.map_flatMap, hinner]
  simp only [List.mem_flatMap, List.mem_range, List.mem_map]
  constructor
  · rintro ⟨frame, hf, face, hfc, mip, hm, rfl⟩
    exact ⟨hm, hf, rfl⟩
  · rintro ⟨hm, hf, hfo⟩
    obtain ⟨face, hface⟩ := Option.isSome_iff_exists.mp hfo
    refine ⟨k.frame, hf, face, face_mem_all face, k.mip, hm, ?_⟩
    cases k with
    | mk m fr fc =>
      cases hface
      rfl

theorem ddsOrderFlat_keys (nf : Nat) (sizes : List Nat) (k : MipIndex) :
    k ∈ (ddsOrderFlat nf sizes).map Prod.fst ↔
      (k.mip < sizes.length ∧ k.frame < nf ∧ k.face = none) := by
  unfold ddsOrderFlat
  have hinner : ∀ frame : Nat,
      ((sizes.enum.map fun p =>
        ((⟨p.1, frame, none⟩ : MipIndex), p.2)).map Prod.fst) =
      (List.range sizes.length).map fun mip =>
        (⟨mip, frame, none⟩ : MipIndex) := by
    intro frame
    exact enum_pair_keys sizes (fun mip => (⟨mip, frame, none⟩ : MipIndex))
  simp only [List.map_flatMap, hinner]
  simp only [List.mem_flatMap, List.mem_range, List.mem_map]
  constructor
  · rintro ⟨frame, hf, mip, hm, rfl⟩
    exact ⟨hm, hf, rfl⟩
  · rintro ⟨hm, hf, hfo⟩
    refine ⟨k.frame, hf, k.mip, hm, ?_⟩
    cases k with
    | mk m fr fc =>
      cases hfo
      rfl

theorem Pvr.mipOrder_keys (sizes : List Nat) (k : MipIndex) :
    k ∈ (Pvr.mipOrder sizes).map Prod.fst ↔
      (k.mip < sizes.length ∧ k.frame = 0 ∧ k.face = none) := by
  unfold Pvr.mipOrder
  have hinner :
      ((sizes.enum.map fun p =>
        ((⟨p.1, 0, none⟩ : MipIndex), p.2)).map Prod.fst) =
      (List.range sizes.length).map fun mip =>
        (⟨mip, 0, none⟩ : MipIndex) :=
    enum_pair_keys sizes (fun mip => (⟨mip, 0, none⟩ : MipIndex))
  rw [hinner]
  simp only [List.mem_map, List.mem_range]
  constructor
  · rintro ⟨mip, hm, rfl⟩
    exact ⟨hm, rfl, rfl⟩
  · rintro ⟨hm, hf, hfo⟩
    refine ⟨k.mip, hm, ?_⟩
    cases k with
    | mk m fr fc =>
      cases hf
      cases hfo
      rfl

theorem vtfOrderCubemap_keys (nf : Nat) (sizes : List Nat) (k : VtfKey) :
    k ∈ (vtfOrderCubemap nf sizes).map Prod.fst ↔
      ∃ i : MipIndex, k = VtfKey.idx i ∧ i.mip < sizes.length ∧
        i.frame < nf ∧ i.face.isSome = true := by
  unfold vtfOrderCubemap
  have hcomp : ∀ (p : Nat × Nat) (frame : Nat),
      ((Face.all.map fun face =>
        ((VtfKey.idx ⟨p.1, frame, some face⟩ : VtfKey), p.2)).map Prod.fst) =
      Face.all.map fun face => (VtfKey.idx ⟨p.1, frame, some face⟩ : VtfKey) := by
    intro p frame
    rw [List.map_map]
    rfl
  simp only [List.map_flatMap, hcomp]
  have houter :
      (sizes.enum.reverse.flatMap fun p =>
        (List.range nf).flatMap fun frame =>
          Face.all.map fun face =>
            (VtfKey.idx ⟨p.1, frame, some face⟩ : VtfKey)) =
      ((sizes.enum.reverse.map Prod.fst).flatMap fun mip =>
        (List.range nf).flatMap fun frame =>
          Face.all.map fun face =>
            (VtfKey.idx ⟨mip, frame, some face⟩ : VtfKey)) :=
    (List.flatMap_map Prod.fst
      (fun mip => (List.range nf).flatMap fun frame =>
        Face.all.map fun face =>
          (VtfKey.idx ⟨mip, frame, some face⟩ : VtfKey))
      sizes.enum.reverse).symm
  rw [houter, List.map_reverse, List.enum_map_fst]
  simp only [List.mem_flatMap, List.mem_reverse, List.mem_range, List.mem_map]
  constructor
  · rintro ⟨mip, hm, frame, hf, face, hfc, rfl⟩
    exact ⟨⟨mip, frame, some face⟩, rfl, hm, hf, rfl⟩
  · rintro ⟨i, rfl, hm, hf, hfo⟩
    obtain ⟨face, hface⟩ := Option.isSome_iff_exists.mp hfo
    refine ⟨i.mip, hm, i.frame, hf, face, face_mem_all face, ?_⟩
    cases i with
    | mk m fr fc =>
      cases hface
      rfl

theorem vtfOrderFlat_keys (nf : Nat) (sizes : List Nat) (k : VtfKey) :
    k ∈ (vtfOrderFlat nf sizes).map Prod.fst ↔
      ∃ i : MipIndex, k = VtfKey.idx i ∧ i.mip < sizes.length ∧
        i.frame < nf ∧ i.face = none := by
  unfold vtfOrderFlat
  have hcomp : ∀ p : Nat × Nat,
      (((List.range nf).map fun frame =>
        ((VtfKey.idx ⟨p.1, frame, none⟩ : VtfKey), p.2)).map Prod.fst) =
      (List.range nf).map fun frame =>
        (VtfKey.idx ⟨p.1, frame, none⟩ : VtfKey) := by
    intro p
    rw [List.map_map]
    rfl
  simp only [List.map_flatMap, hcomp]
  have houter :
      (sizes.enum.reverse.flatMap fun p =>
        (List.range nf).map fun frame =>
          (VtfKey.idx ⟨p.1, frame, none⟩ : VtfKey)) =
      ((sizes.enum.reverse.map Prod.fst).flatMap fun mip =>
        (List.range nf).map fun frame =>
          (VtfKey.idx ⟨mip, frame, none⟩ : VtfKey)) :=
    (List.flatMap_map Prod.fst
      (fun mip => (List.range nf).map fun frame =>
        (VtfKey.idx ⟨mip, frame, none⟩ : VtfKey))
      sizes.enum.reverse).symm
  rw [houter, List.map_reverse, List.enum_map_fst]
  simp only [List.mem_flatMap, List.mem_reverse, List.mem_range, List.mem_map]
  constructor
  · rintro ⟨mip, hm, frame, hf, rfl⟩
    exact ⟨⟨mip, frame, none⟩, rfl, hm, hf, rfl⟩
  · rintro ⟨i, rfl, hm, hf, hfo⟩
    refine ⟨i.mip, hm, i.frame, hf, ?_⟩
    cases i with
    | mk m fr fc =>
      cases hfo
      rfl

/-! ## Claim C7 -/

/-- C7 counterexample: at the 16-bit RGB565 value `0x0800` (red channel
`r5 = 1`), `rgb565_as_rgb888` yields red `9 = (1 | 1 << 3)`, while the
claimed bit-replication `(r5 << 3) | (r5 >> 2)` yields `8`, so the claim
"expands each channel by bit-replication of the high bits into the low
bits" is false. -/
theorem C7_counterexample :
    rgb565_as_rgb888 0x0800 ≠ rgb565_bit_replication 0x0800 ∧
    rgb565_as_rgb888 0x0800 = (9, 0, 0) := by
  constructor <;> decide

/-- C7 (amended): for every pixel value, `rgb565_as_rgb888` expands each
channel to 8 bits by OR-ing the raw channel with its own left shift and
masking to 8 bits: `r8 = (r5 | r5 << 3) & 0xFF`, `g8 = (g6 | g6 << 2) & 0xFF`,
`b8 = (b5 | b5 << 3) & 0xFF` — not by replicating the high bits into the
low bits. -/
theorem C7_rgb565_or_shift_expansion (pixel : Nat) :
    rgb565_as_rgb888 pixel = rgb565_or_shift pixel := rfl

/-! ## Claim C8 -/

/-- C8: for the literal alpha block with endpoints `a0 = 200, a1 = 50`
(`a0 > a1`) the decoded 8-entry palette is the 8 monotonically-decreasing
interpolated steps `200 > 178 > 157 > 135 > 114 > 92 > 71 > 50` (in
interpolation order `a0, a2, ..., a7, a1`); for `a0 = 50, a1 = 200`
(`a0 ≤ a1`) it is the 6 interpolated entries `50, 200, 80, 110, 140, 170`
plus the exact values `0` and `255` at palette indices 6 and 7. -/
theorem C8_DXT5_alpha_tie_break :
    DXT5_alpha_palette [200, 50, 0, 0, 0, 0, 0, 0]
      = [200, 50, 178, 157, 135, 114, 92, 71] ∧
    strictDecreasing
      (alphaSteps (DXT5_alpha_palette [200, 50, 0, 0, 0, 0, 0, 0])) = true ∧
    DXT5_alpha_palette [50, 200, 0, 0, 0, 0, 0, 0]
      = [50, 200, 80, 110, 140, 170, 0, 255] ∧
    (DXT5_alpha_palette [50, 200, 0, 0, 0, 0, 0, 0]).getD 6 0 = 0 ∧
    (DXT5_alpha_palette [50, 200, 0, 0, 0, 0, 0, 0]).getD 7 0 = 255 := by
  refine ⟨by decide, by decide, by decide, by decide, by decide⟩

/-! ## Claim C5 -/

/-- C5 counterexample: for a well-formed PVR input whose texture mode is
`TWIDDLED_MIPS` (`0x02`, a `_MIPS` mode), `Pvr.parse` does not fail with
`NotImplemented`: it returns a Texture, here even with structured
(possibly corrupt) mip data, because the `_MIPS` guard is commented out
in the source. -/
theorem C5_counterexample :
    Pvr.parse (mkPvrBytes none 10 2 2 1 1 [7, 7]) =
      .ok { gbix := none, data_size := 10, format := ⟨2, 2⟩,
            max_size := (1, 1), num_frames := 1, num_mipmaps := 1,
            mipmaps := [(⟨0, 0, none⟩, [7, 7])], raw_data := none } ∧
    TextureMode.isMips 2 = true := by
  exact ⟨by decide, by decide⟩

/-- C5 (amended): `Pvr.parse` never raises `NotImplemented` on any input;
`_MIPS` texture modes are parsed like any other mode (the declared-size
gate decides between a structured read and the raw-data fallback). -/
theorem C5_no_not_implemented (x : Bytes) :
    Pvr.parse x ≠ .error .notImplemented :=
  Pvr.parse_no_notImpl x

/-! ## Claim C6 -/

/-- C6: for every PVR input with a recognized pixel mode whose declared
`data_size` differs from the computed sum of mip byte sizes plus 8,
`Pvr.parse` returns successfully with `raw_data` holding the remaining
payload bytes and `mipmaps` left empty. -/
theorem C6_pvr_soft_fallback (gbix : Option Bytes) (ds pm tm w h : Nat)
    (payload : Bytes)
    (hgb : ∀ g, gbix = some g → g.length < 2 ^ 32)
    (hds : ds < 2 ^ 32) (hw : w < 2 ^ 16) (hh : h < 2 ^ 16)
    (hpm : PixelMode.isValid pm = true) (htm : TextureMode.isValid tm = true)
    {bpp8 : Nat} (hbpp : Pvr.bytes_per_pixel_x8 pm = some bpp8)
    (hgate : ceilMul8 (w * h) bpp8 + 8 ≠ ds) :
    Pvr.parse (mkPvrBytes gbix ds pm tm w h payload) =
      .ok { gbix := gbix, data_size := ds, format := ⟨pm, tm⟩,
            max_size := (w, h), num_frames := 1, num_mipmaps := 1,
            mipmaps := [], raw_data := some payload } := by
  rw [Pvr.parse_forward gbix ds pm tm w h payload hgb hds hw hh hpm htm hbpp,
    if_pos hgate]

/-- C6 witness: the spec scenario — a PVRT header whose `data_size` (11)
is off by one from the true total (2 bytes of ARGB_4444 pixels plus 8)
parses successfully into the raw-data fallback. -/
theorem C6_pvr_soft_fallback_witness :
    Pvr.parse (mkPvrBytes none 11 2 1 1 1 [7, 7]) =
      .ok { gbix := none, data_size := 11, format := ⟨2, 1⟩,
            max_size := (1, 1), num_frames := 1, num_mipmaps := 1,
            mipmaps := [], raw_data := some [7, 7] } :=
  C6_pvr_soft_fallback none 11 2 1 1 1 [7, 7]
    (by intro g hg; cases hg) (by decide) (by decide) (by decide)
    rfl rfl rfl (by decide)

/-! ## Claim C1 -/

/-- C1 (amended, PVR part): for every well-formed PVR input whose pixel
format is known — optional GBIX chunk, `data_size` matching the mip
total plus 8, a full payload for the single mip, and possibly trailing
junk — `parse(serialize(parse(x))) = parse(x)`. -/
theorem C1_pvr_round_trip (gbix : Option Bytes) (pm tm w h : Nat)
    (m0 junk : Bytes)
    (hgb : ∀ g, gbix = some g → g.length < 2 ^ 32)
    (hds : m0.length + 8 < 2 ^ 32) (hw : w < 2 ^ 16) (hh : h < 2 ^ 16)
    (hpm : PixelMode.isValid pm = true) (htm : TextureMode.isValid tm = true)
    {bpp8 : Nat} (hbpp : Pvr.bytes_per_pixel_x8 pm = some bpp8)
    (hm0 : m0.length = ceilMul8 (w * h) bpp8) :
    pvrRoundTrip (mkPvrBytes gbix (m0.length + 8) pm tm w h (m0 ++ junk)) =
      Pvr.parse (mkPvrBytes gbix (m0.length + 8) pm tm w h (m0 ++ junk)) := by
  have hpm256 : pm < 256 := by
    have h7 : pm ≤ 7 := by simpa [PixelMode.isValid] using hpm
    omega
  have htm256 : tm < 256 := by
    have h18 := htm
    unfold TextureMode.isValid at h18
    simp only [Bool.or_eq_true, Bool.and_eq_true, decide_eq_true_eq,
      beq_iff_eq] at h18
    omega
  have hgate : ¬(ceilMul8 (w * h) bpp8 + 8 ≠ m0.length + 8) := by omega
  have hx := Pvr.parse_forward gbix (m0.length + 8) pm tm w h (m0 ++ junk)
    hgb hds hw hh hpm htm hbpp
  rw [if_neg hgate] at hx
  have htake : (m0 ++ junk).take (ceilMul8 (w * h) bpp8) = m0 := by
    rw [← hm0]
    exact List.take_left m0 junk
  rw [htake] at hx
  unfold pvrRoundTrip
  rw [hx]
  simp only [pureIsOk, bindOk, bindOkB]
  rw [Pvr.as_bytes_structured gbix (m0.length + 8) pm tm w h m0 hpm256 htm256]
  simp only [pureIsOk, bindOk, bindOkB]
  have hy := Pvr.parse_forward gbix (m0.length + 8) pm tm w h m0
    hgb hds hw hh hpm htm hbpp
  rw [if_neg hgate] at hy
  have htake2 : m0.take (ceilMul8 (w * h) bpp8) = m0 := by
    rw [← hm0]
    exact List.take_length m0
  rw [htake2] at hy
  rw [hy]

/-- C1 witness: the round trip at a concrete GBIX-prefixed ARGB_4444
1×1 PVR image with one trailing junk byte. -/
theorem C1_pvr_round_trip_witness :
    pvrRoundTrip (mkPvrBytes (some [1, 2, 3, 4])
        (([7, 7] : Bytes).length + 8) 2 1 1 1 ([7, 7] ++ [9])) =
      Pvr.parse (mkPvrBytes (some [1, 2, 3, 4])
        (([7, 7] : Bytes).length + 8) 2 1 1 1 ([7, 7] ++ [9])) :=
  C1_pvr_round_trip (some [1, 2, 3, 4]) 2 1 1 1 [7, 7] [9]
    (by intro g hg; injection hg with h2; subst h2; decide)
    (by decide) (by decide) (by decide) rfl rfl rfl (by decide)

/-! ## Claims C9 and C10 -/

/-- C10: every successfully parsed DDS texture that carries structured
mipmaps (no raw data) and is not a cubemap fails to serialize with an
attribute-lookup error: the non-cubemap branch of `Dds.as_bytes` reads
the never-assigned `self.array_size`. -/
theorem C10_non_cubemap_serialize (x : Bytes) (t : Dds)
    (hp : Dds.parse x = .ok t) (hr : t.raw_data = none)
    (hc : Dds.is_cubemap t = false) :
    Dds.as_bytes t = .error .attributeError := by
  obtain ⟨header, h2, s2, hbody, hmg⟩ := ddsParse_ok_body hp
  obtain ⟨ht1, ht2, htf, -, -, -, -⟩ := ddsParseBody_ok_inv hbody
  unfold Dds.as_bytes
  rw [ht1, ht2]
  simp only [pureIsOk, bindOk, bindOkB]
  have hout2 : ∀ out2 : Bytes,
      (match t.raw_data with
        | some rd => (pure (header.as_bytes ++ out2 ++ rd) : Except PyErr Bytes)
        | none =>
          if Dds.is_cubemap t = true then do
            let mips ← lookupJoin t.mipmaps
              (ddsSerCubemapKeys t.num_frames t.num_mipmaps)
            pure (header.as_bytes ++ out2 ++ mips)
          else Except.error PyErr.attributeError) =
      .error .attributeError := by
    intro out2
    rw [hr]
    dsimp only
    rw [if_neg (by rw [hc]; exact fun h => Bool.noConfusion h)]
  rcases hmg with hm | ⟨hm, hdim, hasz, hfmt⟩
  · rw [if_pos hm]
    exact hout2 h2.as_bytes
  · rw [if_neg (by rw [hm]; exact fun h => Option.noConfusion h)]
    rw [htf]
    rcases hfmt with hf | hf | hf
    · rw [hf, show (dxgi_magic 0x50 : Option Bytes) =
        some [0x42, 0x43, 0x34, 0x55] from rfl]
      simp only [pureIsOk, bindOk, bindOkB]
      exact hout2 [0x42, 0x43, 0x34, 0x55]
    · rw [hf, show (dxgi_magic 0x53 : Option Bytes) =
        some [0x42, 0x43, 0x35, 0x55] from rfl]
      simp only [pureIsOk, bindOk, bindOkB]
      exact hout2 [0x42, 0x43, 0x35, 0x55]
    · rw [hf, show (dxgi_magic 0x47 : Option Bytes) =
        some [0x44, 0x58, 0x54, 0x31] from rfl]
      simp only [pureIsOk, bindOk, bindOkB]
      exact hout2 [0x44, 0x58, 0x54, 0x31]

set_option maxHeartbeats 2000000 in
theorem C10_witness : Dds.as_bytes c10t = .error .attributeError :=
  C10_non_cubemap_serialize c10x c10t (by decide) rfl rfl

/-- C9: `Dds.split` never yields children: for every successfully parsed
DDS texture with at least one frame, the first loop iteration calls the
`Dds` constructor without its required `filepath` argument and raises
`TypeError`. -/
theorem C9_split_type_error (x : Bytes) (t : Dds)
    (hp : Dds.parse x = .ok t) (hf : 1 ≤ t.num_frames) :
    Dds.split t = .error .typeError := by
  obtain ⟨header, h2, s2, hbody, -⟩ := ddsParse_ok_body hp
  obtain ⟨ht1, ht2, -, -, -, -, -⟩ := ddsParseBody_ok_inv hbody
  unfold Dds.split
  rw [ht1, ht2]
  simp only [pureIsOk, bindOk, bindOkB]
  rw [if_neg (by omega)]

set_option maxHeartbeats 2000000 in
theorem C9_witness : Dds.split c9t = .error .typeError :=
  C9_split_type_error c9x c9t (by decide) (by decide)

set_option maxHeartbeats 4000000 in
/-- C1 (counterexample): a well-formed 2×2 BGRA_8888_UNORM cubemap DDS
file with two mip levels does not round-trip: `Dds.as_bytes` emits each
face's mips smallest-first while `Dds.parse` slices largest-first, so
re-parsing the serialized form scrambles the mip payloads. -/
theorem C1_counterexample : ddsRoundTrip c1ddsx ≠ Dds.parse c1ddsx := by
  decide

/-! ## Claims C2, C3 and C4 -/

/-- C2 (amended): the DDS parse comprehension slices frame → face →
mip-ASCENDING (face collapsing to `None` off the cubemap path), the DDS
cubemap serialize loop emits frame → face → mip-DESCENDING, the VTF
parse comprehension slices mip-DESCENDING OUTERMOST, then frame, then
face, and VTF serialization never emits at all (`Vtf.as_bytes` raises
`AttributeError` unconditionally). -/
theorem C2_slicing_orders :
    (∀ nf sizes, ddsOrderCubemap nf sizes =
      claimOrderParse nf (Face.all.map some) sizes) ∧
    (∀ nf sizes, ddsOrderFlat nf sizes =
      claimOrderParse nf [none] sizes) ∧
    (∀ nf nm, ddsSerCubemapKeys nf nm =
      claimOrderSer nf (Face.all.map some) nm) ∧
    (∀ nf sizes, vtfOrderCubemap nf sizes =
      claimOrderVtfDescOuter nf (Face.all.map some) sizes) ∧
    (∀ nf sizes, vtfOrderFlat nf sizes =
      claimOrderVtfDescOuter nf [none] sizes) ∧
    (∀ t, Vtf.as_bytes t = .error .attributeError) := by
  refine ⟨?_, ?_, ?_, ?_, ?_, fun t => rfl⟩
  · intro nf sizes
    unfold ddsOrderCubemap claimOrderParse
    have h : ∀ frame : Nat,
        (Face.all.flatMap fun face => sizes.enum.map fun p =>
          ((⟨p.1, frame, some face⟩ : MipIndex), p.2)) =
        ((Face.all.map some).flatMap fun face => sizes.enum.map fun p =>
          ((⟨p.1, frame, face⟩ : MipIndex), p.2)) := by
      intro frame
      exact (List.flatMap_map some (fun face => sizes.enum.map fun p =>
        ((⟨p.1, frame, face⟩ : MipIndex), p.2)) Face.all).symm
    simp only [h]
  · intro nf sizes
    unfold ddsOrderFlat claimOrderParse
    have h : ∀ frame : Nat,
        (sizes.enum.map fun p => ((⟨p.1, frame, none⟩ : MipIndex), p.2)) =
        (([none] : List (Option Face)).flatMap fun face =>
          sizes.enum.map fun p => ((⟨p.1, frame, face⟩ : MipIndex), p.2)) := by
      intro frame
      simp
    simp only [h]
  · intro nf nm
    unfold ddsSerCubemapKeys claimOrderSer
    have h : ∀ frame : Nat,
        (Face.all.flatMap fun face => (List.range nm).reverse.map fun mip =>
          (⟨mip, frame, some face⟩ : MipIndex)) =
        ((Face.all.map some).flatMap fun face =>
          (List.range nm).reverse.map fun mip =>
            (⟨mip, frame, face⟩ : MipIndex)) := by
      intro frame
      exact (List.flatMap_map some (fun face =>
        (List.range nm).reverse.map fun mip =>
          (⟨mip, frame, face⟩ : MipIndex)) Face.all).symm
    simp only [h]
  · intro nf sizes
    unfold vtfOrderCubemap claimOrderVtfDescOuter
    have h : ∀ (p : Nat × Nat) (frame : Nat),
        (Face.all.map fun face =>
          ((VtfKey.idx ⟨p.1, frame, some face⟩ : VtfKey), p.2)) =
        ((Face.all.map some).map fun face =>
          ((VtfKey.idx ⟨p.1, frame, face⟩ : VtfKey), p.2)) := by
      intro p frame
      rw [List.map_map]
      rfl
    simp only [h]
  · intro nf sizes
    unfold vtfOrderFlat claimOrderVtfDescOuter
    have h : ∀ p : Nat × Nat,
        ((List.range nf).map fun frame =>
          ((VtfKey.idx ⟨p.1, frame, none⟩ : VtfKey), p.2)) =
        ((List.range nf).flatMap fun frame =>
          ([none] : List (Option Face)).map fun face =>
            ((VtfKey.idx ⟨p.1, frame, face⟩ : VtfKey), p.2)) := by
      intro p
      exact (flatMap_map_singleton (List.range nf) (fun frame =>
        ((VtfKey.idx ⟨p.1, frame, none⟩ : VtfKey), p.2))).symm
    simp only [h]

/-- C2 (counterexample): a v7.0 VTF (2×2, I8, two mip levels, one
frame, no thumbnail) slices the payload mip-DESCENDING: the first 8
payload bytes land in mip 1 and mip 0 receives the remaining 32, not
the other way around as the claimed frame→face→mip-ascending order
would dictate. -/
theorem C2_counterexample :
    (Vtf.parse c2x).map (fun t => t.mipmaps.map Prod.fst) =
      .ok [VtfKey.idx ⟨1, 0, none⟩, VtfKey.idx ⟨0, 0, none⟩] ∧
    (Vtf.parse c2x).map (fun t => lookupKV t.mipmaps (VtfKey.idx ⟨0, 0, none⟩)) =
      .ok (some ((List.range 32).map fun i => i + 18)) :=
  ⟨by decide, by decide⟩

/-- C3: per-codec raw-data discipline.  A DDS parse ends with raw data
exactly when the DXGI format has no `bytes_per_pixel` entry (and then
`mipmaps` is empty); a PVR parse ends with raw data exactly when the
pixel mode has no `bytes_per_pixel` entry or the declared `data_size`
differs from the computed mip total plus 8; a VTF parse never populates
`raw_data` (the two fallbacks are unreachable after `Format(...)`
validation).  In all cases `raw_data` and a nonempty `mipmaps` never
coexist. -/
theorem C3_raw_data_exclusive :
    (∀ (x : Bytes) (t : Dds), Dds.parse x = .ok t →
      ¬ (t.raw_data ≠ none ∧ t.mipmaps ≠ []) ∧
      (t.raw_data ≠ none ↔ Dds.bytes_per_pixel_x8 t.format = none)) ∧
    (∀ (x : Bytes) (t : Pvr), Pvr.parse x = .ok t →
      ¬ (t.raw_data ≠ none ∧ t.mipmaps ≠ []) ∧
      (t.raw_data ≠ none ↔ (Pvr.bytes_per_pixel_x8 t.format.pixel = none ∨
        ∃ bpp8, Pvr.bytes_per_pixel_x8 t.format.pixel = some bpp8 ∧
          (Pvr.mip_sizes t.max_size.1 t.max_size.2 bpp8 1).sum + 8 ≠
            t.data_size))) ∧
    (∀ (x : Bytes) (t : Vtf), Vtf.parse x = .ok t → t.raw_data = none) := by
  refine ⟨?_, ?_, ?_⟩
  · intro x t hp
    obtain ⟨header, h2, s2, hbody, -⟩ := ddsParse_ok_body hp
    obtain ⟨-, -, htf, -, -, -, hd⟩ := ddsParseBody_ok_inv hbody
    rcases hd with ⟨hbpp, ⟨r, hr⟩, hm⟩ | ⟨bpp8, hbpp, hr, -⟩
    · refine ⟨?_, ?_⟩
      · rintro ⟨-, hne⟩
        exact hne hm
      · rw [htf]
        exact ⟨fun _ => hbpp, fun _ => by rw [hr]; simp⟩
    · refine ⟨?_, ?_⟩
      · rintro ⟨hne, -⟩
        exact hne hr
      · rw [htf, hbpp]
        exact ⟨fun hcon => absurd hr hcon, fun hcon => by simp at hcon⟩
  · intro x t hp
    obtain ⟨gb, mg, s2, hbody⟩ := Pvr.parse_ok_body hp
    obtain ⟨-, -, -, -, -, hd⟩ := Pvr.parseBody_ok_inv hbody
    rcases hd with ⟨hbpp, ⟨r, hr⟩, hm⟩ |
      ⟨bpp8, hbpp, ⟨hgate, ⟨r, hr⟩, hm⟩ | ⟨hgate, hrn, -⟩⟩
    · refine ⟨?_, ?_⟩
      · rintro ⟨-, hne⟩
        exact hne hm
      · exact ⟨fun _ => Or.inl hbpp, fun _ => by rw [hr]; simp⟩
    · refine ⟨?_, ?_⟩
      · rintro ⟨-, hne⟩
        exact hne hm
      · exact ⟨fun _ => Or.inr ⟨bpp8, hbpp, hgate⟩, fun _ => by rw [hr]; simp⟩
    · refine ⟨?_, ?_⟩
      · rintro ⟨hne, -⟩
        exact hne hrn
      · constructor
        · intro hcon
          exact absurd hrn hcon
        · rintro (hb | ⟨b, hb, hg⟩)
          · rw [hbpp] at hb
            exact Option.noConfusion hb
          · rw [hbpp] at hb
            injection hb with hb2
            subst hb2
            exact absurd hgate hg
  · intro x t hp
    obtain ⟨header, -, -, -, hrn, -, -⟩ := Vtf.parse_ok_inv hp
    exact hrn

theorem C3_witness :
    ¬ (c3t.raw_data ≠ none ∧ c3t.mipmaps ≠ []) ∧
    (c3t.raw_data ≠ none ↔ Dds.bytes_per_pixel_x8 c3t.format = none) :=
  C3_raw_data_exclusive.1 c3x c3t (by decide)

/-- C4 (amended): after a successful structured parse the key set of
`mipmaps` is the full product of mip levels, frames and faces (the six
faces on the cubemap path, `None` otherwise) — except that a VTF with a
non-`NONE` thumbnail format additionally carries the `"thumbnail"` key,
which lies outside that product. -/
theorem C4_key_space :
    (∀ (x : Bytes) (t : Dds), Dds.parse x = .ok t → t.raw_data = none →
      ∀ k : MipIndex, k ∈ t.mipmaps.map Prod.fst ↔
        (k.mip < t.num_mipmaps ∧ k.frame < t.num_frames ∧
         (if Dds.is_cubemap t then k.face.isSome = true
          else k.face = none))) ∧
    (∀ (x : Bytes) (t : Pvr), Pvr.parse x = .ok t → t.raw_data = none →
      ∀ k : MipIndex, k ∈ t.mipmaps.map Prod.fst ↔
        (k.mip < t.num_mipmaps ∧ k.frame < t.num_frames ∧
         k.face = none)) ∧
    (∀ (x : Bytes) (t : Vtf), Vtf.parse x = .ok t →
      ∀ k : VtfKey, k ∈ t.mipmaps.map Prod.fst ↔
        ((k = VtfKey.thumb ∧ ¬ t.thumbnail_format = -1) ∨
         (∃ i : MipIndex, k = VtfKey.idx i ∧ i.mip < t.num_mipmaps ∧
           i.frame < t.num_frames ∧
           (if Vtf.is_cubemap t then i.face.isSome = true
            else i.face = none)))) := by
  refine ⟨?_, ?_, ?_⟩
  · intro x t hp hraw k
    obtain ⟨header, h2, s2, hbody, -⟩ := ddsParse_ok_body hp
    obtain ⟨-, ht2, -, -, hnm, -, hd⟩ := ddsParseBody_ok_inv hbody
    rcases hd with ⟨-, ⟨r, hr⟩, -⟩ | ⟨bpp8, -, -, s3, hms⟩
    · rw [hraw] at hr
      exact Option.noConfusion hr
    · have hcube : Dds.is_cubemap t = ddsIsCubemapH2 h2 := by
        unfold Dds.is_cubemap
        rw [ht2]
      rw [hms, readSeq_keys]
      by_cases hcm : ddsIsCubemapH2 h2 = true
      · rw [if_pos hcm, hcube, if_pos hcm, ddsOrderCubemap_keys,
          ddsMipSizes_length, hnm]
      · rw [if_neg hcm, hcube, if_neg hcm, ddsOrderFlat_keys,
          ddsMipSizes_length, hnm]
  · intro x t hp hraw k
    obtain ⟨gb, mg, s2, hbody⟩ := Pvr.parse_ok_body hp
    obtain ⟨hnf, hnm, -, -, -, hd⟩ := Pvr.parseBody_ok_inv hbody
    rcases hd with ⟨-, ⟨r, hr⟩, -⟩ |
      ⟨bpp8, -, ⟨-, ⟨r, hr⟩, -⟩ | ⟨-, -, s3, hms⟩⟩
    · rw [hraw] at hr
      exact Option.noConfusion hr
    · rw [hraw] at hr
      exact Option.noConfusion hr
    · rw [hms, readSeq_keys, Pvr.mipOrder_keys, pvrMipSizes_length,
        hnm, hnf]
      simp [Nat.lt_one_iff]
  · intro x t hp k
    obtain ⟨header, -, -, hnf, -, -, tp, s2, htp, hms⟩ := Vtf.parse_ok_inv hp
    by_cases hcb : Vtf.is_cubemap t = true
    · rw [if_pos hcb] at hms
      rw [hms, List.map_append, List.mem_append, readSeq_keys, hnf,
        vtfOrderCubemap_keys, vtfMipSizes_length]
      simp only [if_pos hcb]
      rcases htp with ⟨rfl, htf⟩ | ⟨tb, rfl, htf⟩
      · rw [htf]
        simp
      · simp [htf]
    · rw [if_neg hcb] at hms
      rw [hms, List.map_append, List.mem_append, readSeq_keys, hnf,
        vtfOrderFlat_keys, vtfMipSizes_length]
      simp only [if_neg hcb]
      rcases htp with ⟨rfl, htf⟩ | ⟨tb, rfl, htf⟩
      · rw [htf]
        simp
      · simp [htf]

/-- C4 (counterexample): a v7.0 VTF with an RGBA_8888 thumbnail parses
with the key `"thumbnail"` in `mipmaps` alongside the product key
`MipIndex(0, 0, None)` — the claimed key set contains `MipIndex`
triples only. -/
theorem C4_counterexample :
    (Vtf.parse c4x).map (fun t => t.mipmaps.map Prod.fst) =
      .ok [VtfKey.thumb, VtfKey.idx ⟨0, 0, none⟩] := by
  decide

theorem C4_witness :
    VtfKey.thumb ∈ c4t.mipmaps.map Prod.fst ↔
      ((VtfKey.thumb = VtfKey.thumb ∧ ¬ c4t.thumbnail_format = -1) ∨
       (∃ i : MipIndex, VtfKey.thumb = VtfKey.idx i ∧
         i.mip < c4t.num_mipmaps ∧ i.frame < c4t.num_frames ∧
         (if Vtf.is_cubemap c4t then i.face.isSome = true
          else i.face = none))) :=
  C4_key_space.2.2 c4x c4t (by decide) VtfKey.thumb

